import Mathlib

/-!
Verification development for the ISMAGS-in-Python repository.

This file gives a shallow embedding, in Lean 4, of the core data structures
and algorithms of the repository (candidate iterators, priority queues,
symmetry properties, the OPP symmetry graph, the motif analyzer and the
backtracking search engine), and settles a collection of claims about them.

Modelling conventions, used throughout:
- Host graph nodes are identified by their integer `id` (the Python `Node`
  class never defines `__eq__`, so object identity coincides with id
  equality because ids are unique).  The mutable `used` flag is modelled as
  an explicit finite set of ids threaded through the search state.
- Python lists of nodes become `List Nat` of ids; Python `deque` stacks are
  `List` with index 0 the oldest entry and push/pop at the end, matching
  `deque.append`/`deque.pop` and integer indexing.
- A Python runtime error (IndexError, KeyError, AttributeError,
  UnboundLocalError, TypeError) aborts the whole computation; such crashes
  are modelled by `Option`/`Except` results, with `none`/`.error` meaning
  "the Python program raises here".
- CPython iterates sets of small nonnegative integers in ascending order
  (hash(i) = i and slot assignment is i mod table size, with the table size
  exceeding the values stored for all motif-node and color sets arising
  here); set iteration is therefore modelled by iterating the sorted list
  of elements, and `set.pop()` by removing the minimum.
-/

namespace ISMAGS

/-- Python `sys.maxsize` on a 64-bit platform, used as the initial
`min_set_size` of a `NodeIterator` and as the initial upper bound in
`get_next_best_iterator`. -/
def pyMaxsize : Nat := 9223372036854775807

/-- The elements of a finite set of small nonnegative integers in ascending
order — the order in which CPython iterates such a set (see the module
comment).  Implemented as a structural insertion sort lifted over the
underlying multiset so that the kernel can evaluate it. -/
def sortedAsc (s : Finset Nat) : List Nat :=
  Quotient.liftOn s.val (fun l => l.insertionSort (· ≤ ·))
    (fun a b h =>
      List.eq_of_perm_of_sorted
        ((List.perm_insertionSort _ a).trans
          (h.trans (List.perm_insertionSort _ b).symm))
        (List.sorted_insertionSort _ a) (List.sorted_insertionSort _ b))

/-! ## NodeIterator (src/datastructures/node_iterator.py) -/

/-- Record part of a `NodeIterator`: every attribute of the Python class
except `parent` (which must live in an inductive because it is another
`NodeIterator`).  `nodes` is the precomputed candidate list (`None` until
`intersect` builds a child), `neighborLists` / `nodeCausingRestriction` are
the two parallel stacks of restriction lists and of the ids of the graph
nodes that caused them, and `initialLists` holds the setup-phase lists. -/
structure NIData where
  nodes : Option (List Nat)
  motifNodeId : Nat
  minSetSize : Nat
  neighborLists : List (List Nat)
  nodeCausingRestriction : List Nat
  initialLists : List (List Nat)
  deriving Repr, DecidableEq

/-- A `NodeIterator` is its data together with an optional parent iterator,
mirroring `NodeIterator.__init__`. -/
inductive NodeIterator : Type where
  | mk : NIData → Option NodeIterator → NodeIterator
  deriving Repr

/-- Attribute access for the record part of a `NodeIterator`. -/
def NodeIterator.data : NodeIterator → NIData
  | .mk d _ => d

/-- The `parent` attribute of a `NodeIterator`. -/
def NodeIterator.parent : NodeIterator → Option NodeIterator
  | .mk _ p => p

/-- Replace the record part of a `NodeIterator`, keeping its parent. -/
def NodeIterator.withData : NodeIterator → NIData → NodeIterator
  | .mk _ p, d => .mk d p

/-- Constructor call `NodeIterator(motif_node_id=i)` (no nodes, no parent):
`min_set_size` starts at `sys.maxsize` and all stacks are empty. -/
def NodeIterator.new (motifNodeId : Nat) : NodeIterator :=
  .mk { nodes := none, motifNodeId := motifNodeId, minSetSize := pyMaxsize,
        neighborLists := [], nodeCausingRestriction := [], initialLists := [] } none

/-- Constructor call `NodeIterator(nodes=result, parent=self)` used at the
end of `intersect`: the child inherits the parent's `motif_node_id` and its
`min_set_size` is the length of `nodes`. -/
def NodeIterator.child (nodes : List Nat) (parent : NodeIterator) : NodeIterator :=
  .mk { nodes := some nodes, motifNodeId := parent.data.motifNodeId,
        minSetSize := nodes.length, neighborLists := [],
        nodeCausingRestriction := [], initialLists := [] } (some parent)

/-- `NodeIterator.add_restriction_list(node_list, node)`.  With `node = None`
(setup phase) the list goes to `initial_lists`, at the front when it is
strictly shorter than `min_set_size`; otherwise (search phase) it is pushed
onto `neighbor_lists` unless an element-wise equal list is already present
(Python list equality on node objects is element-wise identity, i.e. id
equality). -/
def NodeIterator.addRestrictionList (it : NodeIterator) (nodeList : List Nat)
    (node : Option Nat) : NodeIterator :=
  let d := it.data
  match node with
  | none =>
      if nodeList.length < d.minSetSize then
        it.withData { d with initialLists := nodeList :: d.initialLists,
                             minSetSize := nodeList.length }
      else
        it.withData { d with initialLists := d.initialLists ++ [nodeList] }
  | some nid =>
      if d.neighborLists.contains nodeList then it
      else
        it.withData { d with
          neighborLists := d.neighborLists ++ [nodeList],
          minSetSize := if nodeList.length < d.minSetSize then nodeList.length
                        else d.minSetSize,
          nodeCausingRestriction := d.nodeCausingRestriction ++ [nid] }

/-- One `while` step of `remove_restriction_list`: pop both stacks while the
top of `node_causing_restriction` has the given id.  The first argument is
fuel, structurally decreasing so that the kernel can evaluate the
definition; every step pops one entry, so `causes.length` steps always
suffice and the fuel-exhaustion branch is unreachable from
`removeRestrictionList`. -/
def popWhileCause : Nat → List (List Nat) → List Nat → Nat →
    List (List Nat) × List Nat
  | 0, nls, causes, _ => (nls, causes)
  | fuel + 1, nls, causes, nid =>
      match causes.getLast? with
      | some c =>
          if c = nid then popWhileCause fuel nls.dropLast causes.dropLast nid
          else (nls, causes)
      | none => (nls, causes)

/-- `NodeIterator.remove_restriction_list(node)`. -/
def NodeIterator.removeRestrictionList (it : NodeIterator) (nid : Nat) : NodeIterator :=
  let d := it.data
  let pr := popWhileCause d.nodeCausingRestriction.length d.neighborLists
    d.nodeCausingRestriction nid
  it.withData { d with neighborLists := pr.1, nodeCausingRestriction := pr.2 }

/-- `NodeIterator.get_node_set`.  `none` models the IndexError raised by
`next(iter_list[0])` when there are no initial lists.  In the multi-list
case the Python code runs a cursor-based merge whose accumulated value
`node_set` is discarded: line 161 returns `list({n for nodes in
self.initial_lists for n in nodes})`, the deduplicated union of all initial
lists, in unspecified (set) order.  The merge loop only reads local
iterators and cannot raise, so it is omitted here and the union is
represented as the deduplicated concatenation; all theorems about this
branch only use membership, which is order-independent. -/
def NodeIterator.getNodeSet (it : NodeIterator) : Option (List Nat) :=
  match it.data.nodes with
  | some ns => some ns
  | none =>
      match it.data.initialLists with
      | [] => none
      | [l] => some l
      | ls => some ls.flatten.dedup

/-- Loop of `NodeIterator.node_index` (binary search).  `left`/`right` are
Python ints; `lastMiddle` tracks the most recent value of the loop-local
variable `middle`.  When the loop never ran, `return -middle-1` raises
UnboundLocalError, modelled by `none`.  On a miss the function returns
`-middle-1` for the final `middle`, which is Java's `-(insertionPoint)-1`
only when the last step moved `right`; when the last step moved `left` the
encoded position is the insertion point minus one. -/
def nodeIndexGo (l : List Nat) (target : Nat) :
    Nat → Int → Int → Option Int → Option Int
  | 0, _, _, _ => none
  | fuel + 1, left, right, lastMiddle =>
      if left ≤ right then
        let middle := left + (right - left) / 2
        let v := l.getD middle.toNat 0
        if v = target then some middle
        else if target > v then
          nodeIndexGo l target fuel (middle + 1) right (some middle)
        else nodeIndexGo l target fuel left (middle - 1) (some middle)
      else
        match lastMiddle with
        | some m => some (-m - 1)
        | none => none

/-- `NodeIterator.node_index(node_list, target)`: binary search over a list
of node ids.  `none` models the UnboundLocalError on an empty list.  The
fuel `l.length + 2` bounds the loop: `right - left + 1` shrinks by at
least one per iteration, so exhaustion is unreachable. -/
def nodeIndex (l : List Nat) (target : Nat) : Option Int :=
  nodeIndexGo l target (l.length + 2) 0 ((l.length : Int) - 1) none

/-- Decoding of the binary-search result used for the lower bound in
`intersect`: `p + 1` when found, `-p - 1` otherwise. -/
def startIndexOf (p : Int) : Nat :=
  if p ≥ 0 then (p + 1).toNat else (-p - 1).toNat

/-- Decoding of the binary-search result used for the upper bound in
`intersect`: `p` when found, `-p - 1` otherwise. -/
def endIndexOf (p : Int) : Nat :=
  if p ≥ 0 then p.toNat else (-p - 1).toNat

/-- `NodeIterator.intersect(minimum, maximum)`.  `used` is the current value
of the mutable `used` flag of each host node.  The first component is the
iterator itself after the in-place update of `min_set_size` performed by the
pivot scan; the second is `none` for a crash (UnboundLocalError inside
`node_index` on an empty pivot list), `some none` for Python `None` (no
neighbor restrictions, or empty result), and `some (some child)` for a
child iterator. -/
def intersectPivot (d : NIData) : List Nat × Nat × Nat :=
  let stackSize := d.neighborLists.length
  let lastList := d.neighborLists.getD (stackSize - 1) []
  if lastList.length > d.minSetSize then
    (List.range (stackSize - 1)).foldl
      (fun acc i =>
        let nn := d.neighborLists.getD i []
        if nn.length < acc.2.1 then (nn, nn.length, i) else acc)
      (lastList, d.minSetSize, stackSize - 1)
  else (lastList, d.minSetSize, stackSize - 1)

/-- Bound conversion of `intersect` (lines 215-229): for a missing bound
the range end is 0 resp. the pivot length; otherwise the binary-search
result is decoded (`none` = crash inside `node_index`). -/
def boundIndex (nodes : List Nat) (bound : Option Nat) (isStart : Bool) :
    Option Nat :=
  match bound with
  | none => some (if isStart then 0 else nodes.length)
  | some m =>
      match nodeIndex nodes m with
      | none => none
      | some p => some (if isStart then startIndexOf p else endIndexOf p)

/-- Filter phase of `intersect` (lines 231-241): the pivot slice,
restricted to unused nodes contained in every other pushed list. -/
def intersectFilter (d : NIData) (nodes : List Nat) (smallest startIndex endIndex : Nat)
    (used : Nat → Bool) : List Nat :=
  ((nodes.drop startIndex).take (endIndex - startIndex)).filter (fun v =>
    !(used v) &&
      (List.range d.neighborLists.length).all (fun i =>
        i == smallest || (d.neighborLists.getD i []).contains v))

def NodeIterator.intersect (it : NodeIterator) (minimum maximum : Option Nat)
    (used : Nat → Bool) : NodeIterator × Option (Option NodeIterator) :=
  let d := it.data
  if d.neighborLists.length = 0 then (it, some none)
  else
    let scan := intersectPivot d
    let it2 := it.withData { d with minSetSize := scan.2.1 }
    match boundIndex scan.1 minimum true with
    | none => (it2, none)
    | some startIndex =>
        match boundIndex scan.1 maximum false with
        | none => (it2, none)
        | some endIndex =>
            let result := intersectFilter d scan.1 scan.2.2 startIndex endIndex used
            if result.length = 0 then (it2, some none)
            else (it2, some (some (NodeIterator.child result it2)))

/-! ## SymmetryProperties (src/datastructures/symmetry_properties.py) -/

/-- Pointwise update of a map from node ids to finsets. -/
def updFin (f : Nat → Finset Nat) (k : Nat) (v : Finset Nat) : Nat → Finset Nat :=
  fun i => if i = k then v else f i

/-- The `SymmetryProperties` object.  The Python `smaller`/`larger`
dictionaries are modelled as total functions defaulting to the empty set,
together with `dom`, the set of keys that have been created; the two
dictionaries always share one key set because `add_constraint` creates all
four entries together (lines 97-119).  Key presence (as opposed to holding
an empty set) is observable only through `in`-tests on the dictionaries, so
`dom` preserves that distinction. -/
structure SymmetryProperties where
  dom : Finset Nat
  smaller : Nat → Finset Nat
  larger : Nat → Finset Nat
  permutations : List (List Nat)

/-- The freshly initialized `SymmetryProperties` (empty dictionaries, no
permutations). -/
def SymmetryProperties.empty : SymmetryProperties :=
  { dom := ∅, smaller := fun _ => ∅, larger := fun _ => ∅, permutations := [] }

/-- `SymmetryProperties.add_constraint(lower_id, higher_id)`, translated
step by step.  The Python method mutates four set objects in sequence; each
`let` below is one of those mutations, in source order.  The two final
loops iterate the then-current values of `smaller[higher]` and
`larger[lower]` and mutate only sets of the other dictionary, so they are
simultaneous updates of `larger` resp. `smaller`. -/
def SymmetryProperties.addConstraint (sp : SymmetryProperties)
    (lower higher : Nat) : SymmetryProperties :=
  -- lines 97-119: create any missing dictionary entries (empty sets)
  let dom := insert lower (insert higher sp.dom)
  -- line 121: smaller_set_a.add(higher_id)
  let s1 := updFin sp.smaller lower (insert higher (sp.smaller lower))
  -- line 122: larger_set_b.add(lower_id)
  let l1 := updFin sp.larger higher (insert lower (sp.larger higher))
  -- line 124: smaller_set_a.update(smaller_set_b)
  let s2 := updFin s1 lower (s1 lower ∪ s1 higher)
  -- line 125: larger_set_b.update(larger_set_a)
  let l2 := updFin l1 higher (l1 higher ∪ l1 lower)
  -- lines 127-128: for i in smaller_set_b: larger[i].add(lower_id)
  let l3 := fun i => if i ∈ s2 higher then insert lower (l2 i) else l2 i
  -- lines 130-131: for i in larger_set_a: smaller[i].add(higher_id)
  let s3 := fun i => if i ∈ l3 lower then insert higher (s2 i) else s2 i
  { dom := dom, smaller := s3, larger := l3, permutations := sp.permutations }

/-- `SymmetryProperties.fix(motif_node_id, orbits)`: emit an order
constraint from `motif_node_id` to every larger-indexed node in the same
orbit. -/
def SymmetryProperties.fix (sp : SymmetryProperties) (motifNodeId : Nat)
    (orbits : List Int) : SymmetryProperties :=
  if motifNodeId ≥ orbits.length then sp
  else
    let orbit := orbits.getD motifNodeId 0
    (List.range' (motifNodeId + 1) (orbits.length - (motifNodeId + 1))).foldl
      (fun acc i =>
        if orbit = orbits.getD i 0 then acc.addConstraint motifNodeId i else acc)
      sp

/-- `SymmetryProperties.add_permutation(permutation)`. -/
def SymmetryProperties.addPermutation (sp : SymmetryProperties)
    (p : List Nat) : SymmetryProperties :=
  { sp with permutations := sp.permutations ++ [p] }

/-- Mutual inverseness of the two constraint dictionaries: j is recorded as
larger than i exactly when i is recorded as smaller than j. -/
def inverseInvariant (sp : SymmetryProperties) : Prop :=
  ∀ i j, j ∈ sp.smaller i ↔ i ∈ sp.larger j

/-- Applying a whole sequence of `add_constraint` calls from the initial
empty state. -/
def applyConstraints (ops : List (Nat × Nat)) : SymmetryProperties :=
  ops.foldl (fun st p => st.addConstraint p.1 p.2) SymmetryProperties.empty

/-- Membership in a conditionally extended finset, the shape produced by
the two update loops of `add_constraint`. -/
theorem mem_ite_insert (c : Prop) [Decidable c] (x y : Nat) (s : Finset Nat) :
    (x ∈ if c then insert y s else s) ↔ (c ∧ x = y) ∨ x ∈ s := by
  split_ifs with hc <;> simp [hc]

/-- One `add_constraint` call preserves mutual inverseness of
`smaller`/`larger`. -/
theorem addConstraint_inverseInvariant (sp : SymmetryProperties)
    (h : inverseInvariant sp) (a b : Nat) :
    inverseInvariant (sp.addConstraint a b) := by
  unfold inverseInvariant at h ⊢
  intro i j
  simp only [SymmetryProperties.addConstraint, updFin]
  by_cases hab : a = b
  · subst hab
    by_cases hia : i = a <;> by_cases hja : j = a <;>
      simp_all [mem_ite_insert, Finset.mem_insert, Finset.mem_union, h]
  · by_cases hia : i = a <;> by_cases hjb : j = b <;>
      simp_all [mem_ite_insert, Finset.mem_insert, Finset.mem_union, h] <;> tauto

/-- Mutual inverseness holds for the freshly initialized object. -/
theorem empty_inverseInvariant : inverseInvariant SymmetryProperties.empty := by
  intro i j
  simp [SymmetryProperties.empty]

/-- Claim C8 (amended): starting from empty dictionaries, after every
sequence of `add_constraint(lower, higher)` calls the two relations are
mutually inverse: j ∈ smaller[i] iff i ∈ larger[j] for all i, j.  (The
transitive-closure half of the original claim fails; see the
counterexample.) -/
theorem c8_add_constraint_mutual_inverse (ops : List (Nat × Nat)) :
    inverseInvariant (applyConstraints ops) := by
  have key : ∀ (l : List (Nat × Nat)) (sp : SymmetryProperties),
      inverseInvariant sp →
      inverseInvariant (l.foldl (fun st p => st.addConstraint p.1 p.2) sp) := by
    intro l
    induction l with
    | nil => exact fun sp h => h
    | cons p t ih =>
        exact fun sp h => ih _ (addConstraint_inverseInvariant sp h p.1 p.2)
  exact key ops _ empty_inverseInvariant

/-- Claim C8 counterexample: after the call sequence (0,1), (2,3), (1,2)
the `smaller` relation is not transitively closed: 1 ∈ smaller[0] and
3 ∈ smaller[1], yet 3 ∉ smaller[0]. -/
theorem c8_not_transitively_closed :
    1 ∈ (applyConstraints [(0, 1), (2, 3), (1, 2)]).smaller 0 ∧
    3 ∈ (applyConstraints [(0, 1), (2, 3), (1, 2)]).smaller 1 ∧
    3 ∉ (applyConstraints [(0, 1), (2, 3), (1, 2)]).smaller 0 := by
  decide

/-! ## Priority queues (src/datastructures/priority_queue.py)

The Python module uses `heapq`; the heap layout (and therefore which of
several equal-priority elements sits at index 0) is part of the observable
behaviour, so `heappush` and `heapify` are translated literally from
CPython's `_siftdown`/`_siftup`. -/

/-- A `PriorityObject`.  `__eq__` compares all four attributes, with
`start_node` compared by node identity, i.e. id. -/
structure PriorityObject where
  startNode : Nat
  fromPosition : Nat
  toPosition : Nat
  numNeighbors : Nat
  deriving Repr, DecidableEq

/-- `PriorityObject.__lt__`: ordering by `num_neighbors` only. -/
def poLt (a b : PriorityObject) : Bool := a.numNeighbors < b.numNeighbors

/-- Placeholder element for in-bounds list reads. -/
def poDefault : PriorityObject := ⟨0, 0, 0, 0⟩

/-- CPython `heapq._siftdown(heap, startpos, pos)` with
`newitem = heap[pos]` passed explicitly: walk the new item up towards
`startpos`, moving larger parents down.  The fuel decreases structurally
(the position strictly decreases per step, so `pos + 1` steps always
suffice and exhaustion is unreachable from the call sites). -/
def siftdownGo : Nat → List PriorityObject → Nat → Nat → PriorityObject →
    List PriorityObject
  | 0, heap, _, pos, newitem => heap.set pos newitem
  | fuel + 1, heap, startpos, pos, newitem =>
      if startpos < pos then
        let parentpos := (pos - 1) / 2
        let parent := heap.getD parentpos poDefault
        if poLt newitem parent then
          siftdownGo fuel (heap.set pos parent) startpos parentpos newitem
        else heap.set pos newitem
      else heap.set pos newitem

/-- CPython `heapq._siftup(heap, pos)` with `newitem = heap[pos]` and
`endpos = len(heap)` passed explicitly: move the smaller child up until a
leaf is reached, then sift the new item down from there.  `endpos - pos`
strictly decreases, so fuel `endpos + 1` always suffices. -/
def siftupGo : Nat → List PriorityObject → Nat → Nat → Nat → PriorityObject →
    List PriorityObject
  | 0, heap, _, _, _, _ => heap
  | fuel + 1, heap, startpos, pos, endpos, newitem =>
      if 2 * pos + 1 < endpos then
        let childpos := 2 * pos + 1
        let rightpos := childpos + 1
        let childpos2 :=
          if rightpos < endpos &&
              !(poLt (heap.getD childpos poDefault) (heap.getD rightpos poDefault)) then
            rightpos
          else childpos
        let heap2 := heap.set pos (heap.getD childpos2 poDefault)
        siftupGo fuel heap2 startpos childpos2 endpos newitem
      else
        siftdownGo (pos + 1) (heap.set pos newitem) startpos pos newitem

/-- `heapq.heappush(heap, item)`: append, then sift down from the last
position. -/
def heappush (heap : List PriorityObject) (item : PriorityObject) :
    List PriorityObject :=
  siftdownGo (heap.length + 1) (heap ++ [item]) 0 heap.length item

/-- `heapq.heapify(x)`: sift up every non-leaf position, in reverse order. -/
def heapifyList (heap : List PriorityObject) : List PriorityObject :=
  ((List.range (heap.length / 2)).reverse).foldl
    (fun h i => siftupGo (h.length + 1) h i i h.length (h.getD i poDefault)) heap

/-- `PriorityQueue.remove_object(priority_obj)`: locate the first equal
element (`list.index`), remove it and re-heapify; `none` models the
ValueError raised when the object is absent. -/
def pqRemoveObject (pq : List PriorityObject) (obj : PriorityObject) :
    Option (List PriorityObject) :=
  match pq.findIdx? (fun x => x = obj) with
  | none => none
  | some i => some (heapifyList (pq.eraseIdx i))

/-- The `PriorityQueue` wrapper: the heap list plus the
`motif_map` dictionary from `from_position` to the element stored for it
(an insertion-ordered association list; only key lookup and removal are
ever observed). -/
structure PriorityQueue where
  pq : List PriorityObject
  motifMap : List (Nat × PriorityObject)
  deriving Repr, DecidableEq

/-- The freshly constructed empty `PriorityQueue`. -/
def PriorityQueue.emptyQ : PriorityQueue := ⟨[], []⟩

/-- Dictionary assignment `motif_map[k] = v` (overwrite in place, or append
a new key). -/
def assocSet (m : List (Nat × PriorityObject)) (k : Nat) (v : PriorityObject) :
    List (Nat × PriorityObject) :=
  if m.any (fun e => e.1 = k) then
    m.map (fun e => if e.1 = k then (k, v) else e)
  else m ++ [(k, v)]

/-- Dictionary lookup in `motif_map`. -/
def assocGet (m : List (Nat × PriorityObject)) (k : Nat) : Option PriorityObject :=
  (m.find? (fun e => e.1 = k)).map (·.2)

/-- `PriorityQueue.add(element)`. -/
def PriorityQueue.add (q : PriorityQueue) (e : PriorityObject) : PriorityQueue :=
  { pq := heappush q.pq e, motifMap := assocSet q.motifMap e.fromPosition e }

/-- `PriorityQueue.peek()`: the heap root, or `None` when empty. -/
def PriorityQueue.peek (q : PriorityQueue) : Option PriorityObject :=
  q.pq.head?

/-- `PriorityQueue.remove_motif_node(motif_node)`: silently do nothing when
the key is absent; otherwise pop the map entry and remove the object from
the heap (`none` models the ValueError crash of `remove_object` when the
object is missing from the heap). -/
def PriorityQueue.removeMotifNode (q : PriorityQueue) (motifNode : Nat) :
    Option PriorityQueue :=
  match assocGet q.motifMap motifNode with
  | none => some q
  | some obj =>
      let m2 := q.motifMap.filter (fun e => !(e.1 = motifNode : Bool))
      match pqRemoveObject q.pq obj with
      | none => none
      | some pq2 => some { pq := pq2, motifMap := m2 }

/-- `PriorityQueueMap.poll(indices)`.  `indices` is the set
`unmapped_nodes`, iterated in ascending order (CPython small-int set
order).  The outer `none` models the StopIteration raised by
`next(index_iter)` on an empty set; the inner option is Python's return
value, which may be `None` when every inspected queue is empty. -/
def pqmPoll (pqm : List PriorityQueue) (indices : List Nat) :
    Option (Option PriorityObject) :=
  match indices with
  | [] => none
  | first :: rest =>
      let firstPq := pqm.getD first PriorityQueue.emptyQ
      let minScore :=
        match firstPq.peek with
        | none => pyMaxsize
        | some o => o.numNeighbors
      let result := rest.foldl
        (fun (acc : PriorityQueue × Nat) e =>
          let nextPq := pqm.getD e PriorityQueue.emptyQ
          match nextPq.peek with
          | none => acc
          | some o => if o.numNeighbors < acc.2 then (nextPq, o.numNeighbors) else acc)
        (firstPq, minScore)
      some result.1.peek

/-! ## Motif and network data model (src/motifs/motif.py, src/network/) -/

/-- A `MotifLink` as observed by the algorithm: its dense id, the id of its
`link_type`, and whether it is the type's canonical forward kind
(`link_type.motif_link.motif_link_id == motif_link_id`, the test used in
`SymmetryGraph._refine`). -/
structure MotifLinkV where
  motifLinkId : Nat
  linkTypeId : Nat
  isForward : Bool
  deriving Repr, DecidableEq

/-- A finalized `Motif`: node count, `final_connections` and the parallel
`links` lists, and the set `link_types` of link-type ids (used by `_refine`
for the signature width). -/
structure MotifV where
  n : Nat
  finalConnections : List (List Nat)
  links : List (List MotifLinkV)
  linkTypes : Finset Nat
  deriving DecidableEq

/-- The host network as observed during search.  `byType` is the
`nodes_with_link` dictionary, keyed by `motif_link_id` (MotifLink objects
are compared by identity and are in bijection with their ids); `none`
models a missing key (KeyError in `get_nodes_of_type`).  `nbr v` is host
node v's `neighbours_per_type` array, indexed by `motif_link_id`; entries
are always lists (never Python `None`) because `Node.__init__` fills the
array with fresh empty lists. -/
structure NetworkV where
  byType : Nat → Option (List Nat)
  nbr : Nat → List (List Nat)

/-- `Network.get_nodes_of_type(node_type)`: KeyError (modelled `none`) when
the motif link kind never occurs in the network; otherwise the stored list
(the `if node_list ... else []` branch returns an equal value). -/
def getNodesOfType (net : NetworkV) (k : Nat) : Option (List Nat) :=
  net.byType k

/-- The mutable state of a running search: the `used` flags of the host
nodes (as the set of ids with `used = true`), the partial mapping
`mapped_nodes`, the per-motif-node candidate iterators `mapping`, the
priority-queue map, `mapped_positions` and `unmapped_nodes`, and the
result container.  The Python result container is a `set` of fresh
`MotifInstance` objects; since `MotifInstance` defines neither `__eq__` nor
`__hash__`, membership is object identity and every `add` of a fresh object
appends, so the container is modelled as the list of stored mapping
snapshots in insertion order (see the separate `PySetMI` model used for
claim C7). -/
structure SState where
  used : Finset Nat
  mappedNodes : List (Option Nat)
  mapping : List NodeIterator
  pqMap : List PriorityQueue
  mappedPositions : Finset Nat
  unmappedNodes : Finset Nat
  instances : List (List (Option Nat))

/-- `SymmetryHandler.map_node(motif_node, graph_node)`.  For every
still-unmapped motif neighbour the corresponding neighbour list of
`graph_node` is pushed as a restriction and a priority object is
registered.  The Python early exit `if links is None: return False`
(lines 149-150) is unreachable: `Node.__init__`
(src/network/node.py lines 47-50) fills `neighbours_per_type` with fresh
empty lists and `Network.add_link` only appends to them, so an empty
neighbour list is pushed like any other and the method always returns
True. -/
def mapNodeStep (motif : MotifV) (net : NetworkV) (motifNode graphNode : Nat)
    (st : SState) : SState × Bool :=
  let conns := motif.finalConnections.getD motifNode []
  let restr := motif.links.getD motifNode []
  let st2 := (conns.zip restr).foldl
    (fun s cr =>
      let c := cr.1
      if (s.mappedNodes.getD c none).isSome then s
      else
        let links := (net.nbr graphNode).getD cr.2.motifLinkId []
        let it2 := (s.mapping.getD c (NodeIterator.new c)).addRestrictionList
          links (some graphNode)
        let pq2 := (s.pqMap.getD c PriorityQueue.emptyQ).add
          ⟨graphNode, motifNode, c, links.length⟩
        { s with mapping := s.mapping.set c it2, pqMap := s.pqMap.set c pq2 })
    st
  (st2, true)

/-- `SymmetryHandler.remove_node_mapping(motif_node, graph_node)`: release
the restrictions and priority objects contributed by `graph_node`.  `none`
propagates a ValueError crash from `remove_object`. -/
def removeNodeMappingStep (motif : MotifV) (motifNode graphNode : Nat)
    (st : SState) : Option SState :=
  (motif.finalConnections.getD motifNode []).foldl
    (fun os i =>
      match os with
      | none => none
      | some s =>
          let it2 := (s.mapping.getD i (NodeIterator.new i)).removeRestrictionList
            graphNode
          match (s.pqMap.getD i PriorityQueue.emptyQ).removeMotifNode motifNode with
          | none => none
          | some pq2 =>
              some { s with mapping := s.mapping.set i it2,
                            pqMap := s.pqMap.set i pq2 })
    (some st)

/-- Lower-bound computation of `get_next_best_iterator` (lines 94-106):
fold over the `larger` set of the polled motif node, in ascending order,
keeping the largest id among mapped peers.  `none` models the
AttributeError when `mapped_nodes[integer]` is `None` (or IndexError when
out of range) for a position recorded in `mapped_positions`. -/
def gnbiMinFold (st : SState) (s : List Nat) : Option (Option Nat) :=
  s.foldl
    (fun acc i =>
      match acc with
      | none => none
      | some mv =>
          if i ∈ st.mappedPositions then
            match st.mappedNodes.getD i none with
            | none => none
            | some nid =>
                if (match mv with | none => true | some v => decide (v < nid)) then
                  some (some nid)
                else some mv
          else some mv)
    (some none)

/-- Upper-bound computation of `get_next_best_iterator` (lines 108-124):
fold over the `smaller` set in ascending order, keeping the smallest id
among mapped peers, starting from `sys.maxsize`; when a new bound is
installed and the current lower bound exceeds it, the method returns
`None` immediately (modelled by the absorbing `some none`).  The outer
`none` is a crash as in `gnbiMinFold`. -/
def gnbiMaxFold (st : SState) (minVal : Option Nat) (s : List Nat) :
    Option (Option (Option Nat)) :=
  s.foldl
    (fun acc i =>
      match acc with
      | none => none
      | some none => some none
      | some (some mv) =>
          if i ∈ st.mappedPositions then
            match st.mappedNodes.getD i none with
            | none => none
            | some nid =>
                if (match mv with
                    | none => decide (nid < pyMaxsize)
                    | some v => decide (nid < v)) then
                  if (match minVal with | none => false | some v => decide (v > nid)) then
                    some none
                  else some (some (some nid))
                else some (some mv)
          else some (some mv))
    (some (some none))

/-- `SymmetryHandler.get_next_best_iterator(unmapped_motif_nodes)`.  The
smaller/larger dictionaries installed by the analyzer are passed as `sym`.
Result: `none` for a crash (StopIteration on an empty unmapped set,
AttributeError when `poll` returns `None` or a bound position is
unmapped, IndexError on `self.mapping[motif_node_id]` at line 92,
UnboundLocalError inside `intersect`); otherwise the state with
the in-place `min_set_size` update of `intersect` applied, paired with
Python's return value (`none` = no candidates).  Note that both dictionary
lookups at lines 95 and 109-110 are guarded by `motif_node_id in
self.larger`; since `add_constraint` always creates `smaller` and `larger`
entries together, the key sets coincide (`sym.dom`). -/
def getNextBestIteratorStep (sym : SymmetryProperties) (st : SState) :
    Option (SState × Option NodeIterator) :=
  match pqmPoll st.pqMap (sortedAsc st.unmappedNodes) with
  | none => none
  | some none => none
  | some (some p) =>
      let motifId := p.toPosition
      if hm : motifId < st.mapping.length then
      let it := st.mapping.get ⟨motifId, hm⟩
      let minRes :=
        if motifId ∈ sym.dom then
          gnbiMinFold st (sortedAsc (sym.larger motifId))
        else some none
      match minRes with
      | none => none
      | some minVal =>
          let maxRes :=
            if motifId ∈ sym.dom then
              gnbiMaxFold st minVal (sortedAsc (sym.smaller motifId))
            else some (some none)
          match maxRes with
          | none => none
          | some none => some (st, none)
          | some (some maxVal) =>
              let ir := it.intersect minVal maxVal (fun v => v ∈ st.used)
              match ir.2 with
              | none => none
              | some r =>
                  some ({ st with mapping := st.mapping.set motifId ir.1 }, r)
      else none

/-! ## SymmetryGraph / OPP (src/datastructures/symmetry_graph.py)

The two color dictionaries have integer keys that are allocated densely
(`new_color = len(...)`), so `color_to_top_motif_node` is a plain list
indexed by color.  `color_to_bottom_motif_node` additionally supports
`pop` (temporary key removal during `_refine`), so it is a list of
optional entries where `none` is an absent key; its Python `len` is the
number of present keys. -/

/-- Lookup in the bottom color dictionary (`none` = key absent, which is a
KeyError at use sites). -/
def dGet (m : List (Option (List Nat))) (k : Nat) : Option (List Nat) :=
  m.getD k none

/-- Assignment `m[k] = v` in the bottom color dictionary, extending the
carrier when the key is new. -/
def dSet (m : List (Option (List Nat))) (k : Nat) (v : List Nat) :
    List (Option (List Nat)) :=
  if k < m.length then m.set k (some v)
  else m ++ List.replicate (k - m.length) none ++ [some v]

/-- `m.pop(k)` in the bottom color dictionary. -/
def dPop (m : List (Option (List Nat))) (k : Nat) : List (Option (List Nat)) :=
  if k < m.length then m.set k none else m

/-- Python `len` of the bottom color dictionary: the number of present
keys. -/
def dLen (m : List (Option (List Nat))) : Nat :=
  (m.filter Option.isSome).length

/-- The ordered pair partition state of `SymmetryGraph`: per-node top
color, the two color dictionaries and the `colors_to_recheck` set. -/
structure OPP where
  topColorOf : List Nat
  colorToBottom : List (Option (List Nat))
  colorToTop : List (List Nat)
  recheck : Finset Nat
  deriving DecidableEq

/-- `SymmetryGraph.__init__(motif)`: one color (0) holding every motif node
in both rows. -/
def OPP.initial (n : Nat) : OPP :=
  { topColorOf := List.replicate n 0,
    colorToBottom := [some (List.range n)],
    colorToTop := [List.range n],
    recheck := ∅ }

/-- Checked increment `m[r][c] += 1` of a degree-signature matrix; `none`
models the IndexError raised when a `link_type_id` exceeds the signature
width (possible when the CLI registered more link types than the motif
uses). -/
def bump2 (m : List (List Nat)) (r c : Nat) : Option (List (List Nat)) :=
  if r < m.length ∧ c < (m.getD r []).length then
    some (m.set r ((m.getD r []).set c ((m.getD r []).getD c 0 + 1)))
  else none

/-- Degree-signature accumulation of `_refine` over one row (lines
147-184).  For each incidence of each listed node, two signature cells are
incremented, choosing the column pair by whether the incidence kind is its
type's canonical forward kind.  For the top row the colors of the reached
neighbours are collected as well (`collectReached = true`).  Parallel-array
reads (`final_connections[node][j]`) use defaults where the finalized motif
guarantees equal lengths. -/
def accumDegrees (motif : MotifV) (g : OPP) (kTypes : Nat) (nodes : List Nat)
    (deg0 : List (List Nat)) (collectReached : Bool) :
    Option (List (List Nat) × Finset Nat) :=
  nodes.foldl
    (fun acc node =>
      match acc with
      | none => none
      | some (deg, reach) =>
          let links := motif.links.getD node []
          let conns := motif.finalConnections.getD node []
          (List.range links.length).foldl
            (fun acc2 j =>
              match acc2 with
              | none => none
              | some (deg, reach) =>
                  let ml := links.getD j ⟨0, 0, true⟩
                  let i := conns.getD j 0
                  let step1 :=
                    if ml.isForward then
                      (bump2 deg i ml.linkTypeId).bind
                        (fun d => bump2 d node (kTypes + ml.linkTypeId))
                    else
                      (bump2 deg node ml.linkTypeId).bind
                        (fun d => bump2 d i (kTypes + ml.linkTypeId))
                  match step1 with
                  | none => none
                  | some deg2 =>
                      let reach2 :=
                        if collectReached then insert (g.topColorOf.getD i 0) reach
                        else reach
                      some (deg2, reach2))
            (some (deg, reach)))
    (some (deg0, (∅ : Finset Nat)))

/-- `SymmetryGraph._refine_bottom(node_id, degrees_bottom,
current_color_mapping)`: assign the bottom node to the first color of the
mapping whose stored top signature equals its own (insertion order of the
Python dict), creating the bottom entry when needed; an unmatched node is
silently dropped. -/
def refineBottomStep (ccm : List (Nat × List Nat)) (degB : List (List Nat))
    (nodeId : Nat) (cb : List (Option (List Nat))) : List (Option (List Nat)) :=
  let sig := degB.getD nodeId []
  match ccm.find? (fun e => e.2 = sig) with
  | none => cb
  | some e =>
      let cur := (dGet cb e.1).getD []
      dSet cb e.1 (cur ++ [nodeId])

/-- Partition of one reached color's top nodes by signature (lines
187-218 of `_refine`): the first node keeps the color, later nodes join
the first matching signature class or found a fresh color (recorded for
recheck).  Returns the updated OPP plus the `current_color_mapping`
association list. -/
def refineTopColor (g : OPP) (color : Nat) (degT : List (List Nat))
    (nodesInColor : List Nat) (firstNode : Nat) :
    OPP × List (Nat × List Nat) :=
  let ccm0 := [(color, degT.getD firstNode [])]
  let g0 := { g with colorToTop := g.colorToTop.set color [firstNode] }
  nodesInColor.tail.foldl
    (fun (acc : OPP × List (Nat × List Nat)) node =>
      let (g, ccm) := acc
      let sig := degT.getD node []
      match ccm.find? (fun e => e.2 = sig) with
      | some e =>
          ({ g with
              colorToTop := g.colorToTop.set e.1 ((g.colorToTop.getD e.1 []) ++ [node]),
              topColorOf := g.topColorOf.set node e.1 }, ccm)
      | none =>
          let newColor := g.colorToTop.length
          ({ g with
              colorToTop := g.colorToTop ++ [[node]],
              topColorOf := g.topColorOf.set node newColor,
              recheck := insert color (insert newColor g.recheck) },
            ccm ++ [(newColor, sig)]))
    (g0, ccm0)

/-- Size check at the end of each reached color (lines 227-231): every top
color must have a present bottom entry of equal length. -/
def oppSizesOk (g : OPP) : Bool :=
  (List.range g.colorToTop.length).all
    (fun c =>
      match dGet g.colorToBottom c with
      | none => false
      | some bs => bs.length = (g.colorToTop.getD c []).length)

/-- `SymmetryGraph._refine(color)`: one refinement step.  Outer `none`
models a crash (KeyError on a missing color, IndexError on an empty color
list or a too-narrow signature); the Bool is the validity result. -/
def refineOne (motif : MotifV) (g : OPP) (color : Nat) : Option (OPP × Bool) :=
  let kTypes := motif.linkTypes.card
  if _hc : color < g.colorToTop.length then
    match dGet g.colorToBottom color with
    | none => none
    | some bottomNodes =>
        let topNodes := g.colorToTop.getD color []
        let n := motif.n
        let zeros : List (List Nat) :=
          List.replicate n (List.replicate (2 * kTypes) 0)
        match accumDegrees motif g kTypes topNodes zeros true with
        | none => none
        | some (degT, reached) =>
            match accumDegrees motif g kTypes bottomNodes zeros false with
            | none => none
            | some (degB, _) =>
                -- iterate the reached colors in ascending order (CPython
                -- small-int set order), stopping at the first failed size
                -- check
                (sortedAsc reached).foldl
                  (fun acc integer =>
                    match acc with
                    | none => none
                    | some (g, false) => some (g, false)
                    | some (g, true) =>
                        if integer < g.colorToTop.length then
                          match g.colorToTop.getD integer [] with
                          | [] => none
                          | first :: _ =>
                              let nodesInColor := g.colorToTop.getD integer []
                              let (g1, ccm) :=
                                refineTopColor g integer degT nodesInColor first
                              match dGet g1.colorToBottom integer with
                              | none => none
                              | some bottomInColor =>
                                  let cb1 := dPop g1.colorToBottom integer
                                  let cb2 := bottomInColor.foldl
                                    (fun cb nodeId =>
                                      refineBottomStep ccm degB nodeId cb) cb1
                                  let g2 := { g1 with colorToBottom := cb2 }
                                  some (g2, oppSizesOk g2)
                        else none)
                  (some (g, true))
  else none

/-- Drain loop of `refine_colors` (lines 85-95): while the last refinement
succeeded and `colors_to_recheck` is nonempty, peek its first element (the
minimum, under CPython small-int set order), refine from it and remove
it. -/
def refineColorsLoop (motif : MotifV) (g : OPP) (ok : Bool) :
    Nat → Option (OPP × Bool)
  | 0 => none
  | fuel + 1 =>
      if ok ∧ (sortedAsc g.recheck) ≠ [] then
        match (sortedAsc g.recheck).head? with
        | none => none
        | some c =>
            match refineOne motif g c with
            | none => none
            | some (g1, ok1) =>
                refineColorsLoop motif { g1 with recheck := g1.recheck.erase c }
                  ok1 fuel
      else some (g, ok)

/-- `SymmetryGraph.refine_colors(color)`: run `_refine`, then drain
`colors_to_recheck` while refinement keeps succeeding.  Each loop
iteration either consumes a recheck entry or was triggered by freshly
created colors, whose total number is bounded by the motif size, so the
fuel passed by callers is always sufficient; `none` on exhausted fuel. -/
def refineColors (motif : MotifV) (g : OPP) (color : Nat) :
    Nat → Option (OPP × Bool)
  | 0 => none
  | fuel + 1 =>
      match refineOne motif g color with
      | none => none
      | some (g1, ok) => refineColorsLoop motif g1 ok fuel

/-- `SymmetryGraph.map_node_between_partitions(top_id, bottom_id,
split_color)`: clone the OPP (with an empty recheck set, as the fresh
`SymmetryGraph.__init__` provides), split the chosen pair off into a new
color and refine from it.  Outer `none` is a crash (ValueError from
`list.remove`, KeyError, or refinement fuel); the inner option is the
Python result, `none` meaning refinement rejected the branch. -/
def mapNodeBetween (motif : MotifV) (g : OPP) (topId bottomId splitColor : Nat)
    (fuel : Nat) : Option (Option OPP) :=
  match dGet g.colorToBottom splitColor with
  | none => none
  | some bs =>
      if _hsp : splitColor < g.colorToTop.length then
        let ts := g.colorToTop.getD splitColor []
        if bs.contains bottomId ∧ ts.contains topId then
          let newColor := g.colorToTop.length
          let g1 : OPP :=
            { topColorOf := g.topColorOf,
              colorToBottom := dSet (dSet g.colorToBottom splitColor
                (bs.erase bottomId)) newColor [bottomId],
              colorToTop := (g.colorToTop.set splitColor (ts.erase topId)) ++ [[topId]],
              recheck := ∅ }
          match refineColors motif g1 newColor fuel with
          | none => none
          | some (g2, true) => some (some g2)
          | some (_, false) => some none
        else none
      else none

/-! ## Motif analyzer (src/algorithm/symmetry_handler.py, lines 172-311) -/

/-- `SymmetryHandler._merge_orbits(a, b, orbits)` together with the
`number_of_orbits` counter it reads and bumps. -/
def mergeOrbits (a b : Nat) (orbits : List Int) (norb : Nat) : List Int × Nat :=
  let oa := orbits.getD a (-1)
  let ob := orbits.getD b (-1)
  if oa = -1 ∧ ob = -1 then
    ((orbits.set a ((norb : Int) + 1)).set b ((norb : Int) + 1), norb + 1)
  else if ob = -1 then (orbits.set b oa, norb)
  else if oa = -1 then (orbits.set a ob, norb)
  else (orbits.map (fun x => if x = oa then ob else x), norb)

/-- First loop of the "identical subsets" branch of `_map_nodes` (lines
263-269): merge the orbits of the first top and bottom node of every color
key `k` in `range(len(bottom dict))`. -/
def wbFirstLoop (g : OPP) (dl : Nat) (orbits : List Int) (norb : Nat) :
    Option (List Int × Nat) :=
  (List.range dl).foldl
    (fun acc k =>
      match acc with
      | none => none
      | some (orb, nb) =>
          match dGet g.colorToBottom k with
          | none => none
          | some bs =>
              if k < g.colorToTop.length then
                match bs, g.colorToTop.getD k [] with
                | b0 :: _, t0 :: _ =>
                    if b0 ≠ t0 then some (mergeOrbits b0 t0 orb nb)
                    else some (orb, nb)
                | _, _ => none
              else none)
    (some (orbits, norb))

/-- Second loop of the "identical subsets" branch (lines 272-283).  The
iteration count is frozen at entry; the loop variable is reassigned inside
(`j = -1`), which has no effect on a Python `range` loop, so it acts as a
plain `continue`.  When `map_node_between_partitions` returns `None` the
next line reads an attribute of `None` and crashes (AttributeError),
modelled by `none`.  The Bool in the accumulator records that `break` was
taken. -/
def wbSecondLoop (motif : MotifV) (fuelR : Nat) (g0 : OPP) (len0 n : Nat) :
    Option OPP :=
  ((List.range len0).foldl
    (fun (acc : Option (OPP × Bool)) j =>
      match acc with
      | none => none
      | some (cur, true) => some (cur, true)
      | some (cur, false) =>
          match dGet cur.colorToBottom j with
          | none => none
          | some bs =>
              if j < cur.colorToTop.length then
                if bs.length > 1 then
                  match bs, cur.colorToTop.getD j [] with
                  | b0 :: _, t0 :: _ =>
                      match mapNodeBetween motif cur t0 b0 j fuelR with
                      | none => none
                      | some none => none
                      | some (some g2) =>
                          if dLen g2.colorToBottom ≠ n then some (g2, false)
                          else some (g2, true)
                  | _, _ => none
                else some (cur, false)
              else none)
    (some (g0, false))).map (·.1)

/-- Third loop of the "identical subsets" branch (lines 285-292).  Its body
reads the lists at the stale index `k` left over from the first loop, so
every iteration performs the same idempotent assignments; it is executed
once when the iteration range is nonempty. -/
def wbThirdLoop (gF : OPP) (kStale n : Nat) : Option (List Nat × Bool) :=
  if dLen gF.colorToBottom = 0 then some (List.replicate n 0, true)
  else
    match dGet gF.colorToBottom kStale with
    | none => none
    | some bs =>
        if kStale < gF.colorToTop.length then
          match bs, gF.colorToTop.getD kStale [] with
          | b0 :: _, t0 :: _ =>
              if t0 < n then some ((List.replicate n 0).set t0 b0, b0 = t0)
              else none
          | _, _ => none
        else none

/-- The "identical subsets" branch of `_map_nodes` (lines 259-296).  The
result is `.inl` when the branch returns from `_map_nodes` early (with a
permutation recorded), `.inr` when it falls through to the coupling loop,
carrying the orbit array mutated by the first loop.  The stale loop
variable `k` of the third loop is the last index of the first loop; when
the first loop had no iterations `k` is unbound and the third loop raises
NameError, modelled by `none`. -/
def identicalSubsetsBranch (motif : MotifV) (fuelR : Nat)
    (sp : SymmetryProperties) (orbits : List Int) (norb : Nat) (g : OPP) :
    Option ((SymmetryProperties × List Int × Nat) ⊕ (List Int × Nat)) :=
  let n := motif.n
  let dl := dLen g.colorToBottom
  if dl = 0 then none
  else
    match wbFirstLoop g dl orbits norb with
    | none => none
    | some (orb1, nb1) =>
        match wbSecondLoop motif fuelR g dl n with
        | none => none
        | some gF =>
            match wbThirdLoop gF (dl - 1) n with
            | none => none
            | some (perm, identity) =>
                if identity then some (.inr (orb1, nb1))
                else some (.inl (sp.addPermutation perm, orb1, nb1))

/-- `SymmetryHandler._map_nodes(symmetric_properties, orbits,
symmetry_graph, main)`.  The state threaded through is the
`SymmetryProperties` object, the orbit array and the `number_of_orbits`
counter.  `fuelR` is the refinement fuel handed to
`map_node_between_partitions`; the recursion fuel (first argument) is
decremented per recursive call — each branch adds a color and the number
of colors is bounded by the motif size, so the fuel passed by
`analyzeMotif` is sufficient for every run the Python code completes. -/
def mapNodesGo (motif : MotifV) (fuelR : Nat) :
    Nat → SymmetryProperties → List Int → Nat → OPP → Bool →
    Option (SymmetryProperties × List Int × Nat)
  | 0, _, _, _, _, _ => none
  | fuel + 1, sp, orbits, norb, g, main =>
      -- lines 222-239: determine all_one, the split color and the lowest
      -- uncoupled top node
      let scan := (List.range g.colorToTop.length).foldl
        (fun (acc : Bool × Option Nat × Nat) i =>
          let listI := g.colorToTop.getD i []
          if listI.length ≠ 1 then
            match listI.find? (fun m => decide (m < acc.2.2)) with
            | some m => (false, some i, m)
            | none => (false, acc.2.1, acc.2.2)
          else acc)
        (true, none, pyMaxsize)
      if scan.1 then
        -- lines 241-251: every color is a singleton; export the permutation
        -- and merge the orbit of each (top, bottom) pair
        let permRes := (List.range motif.n).foldl
          (fun (acc : Option (List Nat × List Int × Nat)) j =>
            match acc with
            | none => none
            | some (perm, orb, nb) =>
                match dGet g.colorToBottom j with
                | none => none
                | some bs =>
                    if j < g.colorToTop.length then
                      match bs, g.colorToTop.getD j [] with
                      | b0 :: _, t0 :: _ =>
                          if t0 < motif.n then
                            let on2 := mergeOrbits b0 t0 orb nb
                            some (perm.set t0 b0, on2.1, on2.2)
                          else none
                      | _, _ => none
                    else none)
          (some (List.replicate motif.n 0, orbits, norb))
        match permRes with
        | none => none
        | some (perm, orb2, nb2) => some (sp.addPermutation perm, orb2, nb2)
      else
        match scan.2.1 with
        | none => none
        | some splitColor =>
            if _hs : splitColor < g.colorToTop.length then
              let top := scan.2.2
              let topSplit := g.colorToTop.getD splitColor []
              match dGet g.colorToBottom splitColor with
              | none => none
              | some bottomSplit =>
                  let branchRes :
                      Option ((SymmetryProperties × List Int × Nat) ⊕
                        (List Int × Nat)) :=
                    if topSplit.length ≠ motif.n ∧
                        bottomSplit.all (topSplit.contains ·) then
                      identicalSubsetsBranch motif fuelR sp orbits norb g
                    else some (.inr (orbits, norb))
                  match branchRes with
                  | none => none
                  | some (.inl result) => some result
                  | some (.inr (orb1, nb1)) =>
                      -- lines 298-306: couple `top` to every bottom candidate
                      let loopRes := bottomSplit.foldl
                        (fun (acc : Option (SymmetryProperties × List Int × Nat))
                            motifNode =>
                          match acc with
                          | none => none
                          | some (sp1, orb, nb) =>
                              let ot := orb.getD top (-1)
                              if ot ≠ -1 ∧ ot = orb.getD motifNode (-1) then
                                some (sp1, orb, nb)
                              else
                                match mapNodeBetween motif g top motifNode
                                    splitColor fuelR with
                                | none => none
                                | some none => some (sp1, orb, nb)
                                | some (some g2) =>
                                    mapNodesGo motif fuelR fuel sp1 orb nb g2
                                      (main ∧ motifNode = top))
                        (some (sp, orb1, nb1))
                      match loopRes with
                      | none => none
                      | some (sp2, orb2, nb2) =>
                          -- lines 308-310: export symmetry-breaking
                          -- constraints along the identity branch
                          if main then some (sp2.fix top orb2, orb2, nb2)
                          else some (sp2, orb2, nb2)
            else none

/-- `SymmetryHandler._analyze_motif(motif)`: run the recursive analysis
from the initial one-color OPP with all orbits unset, returning the
populated `SymmetryProperties` (whose `smaller`/`larger` dictionaries are
the ones the handler uses during search). -/
def analyzeMotif (motif : MotifV) : Option SymmetryProperties :=
  let fuelR := (motif.n + 2) * (motif.n + 2)
  match mapNodesGo motif fuelR (motif.n + 2) SymmetryProperties.empty
      (List.replicate motif.n (-1)) 0 (OPP.initial motif.n) true with
  | none => none
  | some (sp, _, _) => some sp

/-! ## Search engine (src/algorithm/motif_finder.py) -/

/-- Crash predicate for the `save_links` pre-phase of the base case of
`_map_next` (lines 152-165): scanning motif nodes `i` in order, for each
mapped `i` the first connection entry with a mapped endpoint either breaks
the inner loop (when its value exceeds `i`) or reaches
`self.used_links.add(link)` — which raises TypeError, because `link` is a
Python `set` and sets are unhashable, so they cannot be elements of the
`used_links` set.  The predicate is true iff some `add` is reached. -/
def savedLinksPreCrash (motif : MotifV) (mapped : List (Option Nat)) : Bool :=
  (List.range motif.n).any
    (fun i =>
      (mapped.getD i none).isSome &&
        (match (motif.finalConnections.getD i []).find?
            (fun e => (mapped.getD e none).isSome) with
         | some e => decide (e ≤ i)
         | none => false))

/-- Middle of one iteration of the candidate loop of
`MotifFinder._map_next` (lines 193-201): choose the next motif node via
`get_next_best_iterator`, store the returned child iterator, recurse
(`recurse` is `_map_next` at the next depth), then restore the iterator
entry to `next_iterator.parent`.  The assignments
`mapping[next_iterator.motif_node_id] = ...` raise IndexError when the id
is out of range, modelled by the explicit bound check. -/
def afterRecStep (sym : SymmetryProperties) (k : Nat)
    (recurse : Nat → Nat → SState → Option SState) (st : SState) :
    Option SState :=
  match getNextBestIteratorStep sym st with
  | none => none
  | some (s2b, none) => some s2b
  | some (s2b, some child) =>
      let cid := child.data.motifNodeId
      if cid < s2b.mapping.length then
        let s3 := { s2b with mapping := s2b.mapping.set cid child }
        match recurse cid (k + 1) s3 with
        | none => none
        | some s4 =>
            let restored := child.parent.getD (NodeIterator.new cid)
            some { s4 with mapping := s4.mapping.set cid restored }
      else none

/-- One iteration of the candidate loop of `MotifFinder._map_next`
(lines 185-206): map the candidate, set its `used` flag, propagate
restrictions (`map_node`, which always succeeds, see `mapNodeStep`),
recurse via `afterRecStep`, then backtrack in source order — release the
restrictions, clear the `used` flag and the mapping entry. -/
def candidateStep (net : NetworkV) (motif : MotifV) (sym : SymmetryProperties)
    (motifNode k : Nat) (recurse : Nat → Nat → SState → Option SState)
    (nd : Nat) (st : SState) : Option SState :=
  let s1 : SState :=
    { st with mappedNodes := st.mappedNodes.set motifNode (some nd),
              used := insert nd st.used }
  let ms := mapNodeStep motif net motifNode nd s1
  match (if ms.2 then afterRecStep sym k recurse ms.1 else some ms.1) with
  | none => none
  | some s5 =>
      match removeNodeMappingStep motif motifNode nd s5 with
      | none => none
      | some s6 =>
          some { s6 with used := s6.used.erase nd,
                         mappedNodes := s6.mappedNodes.set motifNode none }

def goCandidates (net : NetworkV) (motif : MotifV) (sym : SymmetryProperties)
    (motifNode k : Nat) (recurse : Nat → Nat → SState → Option SState) :
    List Nat → SState → Option SState
  | [], st => some st
  | nd :: rest, st =>
      match candidateStep net motif sym motifNode k recurse nd st with
      | none => none
      | some snext => goCandidates net motif sym motifNode k recurse rest snext

/-- `MotifFinder._map_next(motif, instances, motif_node, mapped_nodes,
save_links, number_of_mapped=k)`.  `none` models any Python exception
propagating out of the call (including fuel exhaustion, which never
happens in runs the Python code completes: each recursive call increments
`k` and recursion stops at `k = n - 1`, so the depth is at most `n`).
Reading `mapping[motif_node]` out of range is an IndexError in Python; the
model's default fresh iterator has no lists, so `get_node_set` crashes
identically.  In the base case the two `save_links` crash conditions are
checked in source order: the pre-phase (lines 152-165) and, per emitted
candidate, the per-instance link collection (lines 170-176) whose first
`used_links.add` raises TypeError whenever `final_connections[motif_node]`
is nonempty. -/
def mapNext (net : NetworkV) (motif : MotifV) (sym : SymmetryProperties)
    (saveLinks : Bool) : Nat → Nat → Nat → SState → Option SState
  | 0, _, _, _ => none
  | fuel + 1, motifNode, k, st =>
      match (st.mapping.getD motifNode (NodeIterator.new motifNode)).getNodeSet with
      | none => none
      | some nodes =>
          if k = motif.n - 1 then
            if saveLinks && decide (0 < nodes.length) &&
                savedLinksPreCrash motif st.mappedNodes then none
            else if saveLinks && decide (0 < nodes.length) &&
                decide (0 < (motif.finalConnections.getD motifNode []).length) then
              none
            else
              let st2 := nodes.foldl
                (fun s nd =>
                  let m2 := s.mappedNodes.set motifNode (some nd)
                  { s with mappedNodes := m2, instances := s.instances ++ [m2] })
                st
              some { st2 with mappedNodes := st2.mappedNodes.set motifNode none }
          else
            if motifNode ∈ st.unmappedNodes then
              let st1 : SState :=
                { st with
                    mappedPositions := insert motifNode st.mappedPositions,
                    unmappedNodes := st.unmappedNodes.erase motifNode }
              match goCandidates net motif sym motifNode k
                  (fun mn kk s => mapNext net motif sym saveLinks fuel mn kk s)
                  nodes st1 with
              | none => none
              | some s7 =>
                  if motifNode ∈ s7.mappedPositions then
                    some { s7 with
                            mappedPositions := s7.mappedPositions.erase motifNode,
                            unmappedNodes := insert motifNode s7.unmappedNodes }
                  else none
            else none

/-- The setup loop of `MotifFinder.find_motif` for one motif node `i`
(lines 91-119): push the global `by_type` list as an initial restriction
for the first occurrence of each link kind among `i`'s incidences (the
`number_of_links` counter array reduces to this first-occurrence test),
tracking the smallest list size.  `none` models the KeyError of
`get_nodes_of_type` when a kind never occurs in the network. -/
def setupIterator (net : NetworkV) (motif : MotifV) (i : Nat) :
    Option (NodeIterator × Nat) :=
  let linksFromI := motif.links.getD i []
  let conns := motif.finalConnections.getD i []
  ((List.range conns.length).foldl
    (fun (acc : Option (NodeIterator × Nat × Finset Nat)) kk =>
      match acc with
      | none => none
      | some (it, sizeS, seen) =>
          let link := linksFromI.getD kk ⟨0, 0, true⟩
          if link.motifLinkId ∈ seen then some (it, sizeS, seen)
          else
            match getNodesOfType net link.motifLinkId with
            | none => none
            | some nodesOfType =>
                some (it.addRestrictionList nodesOfType none,
                  if nodesOfType.length < sizeS then nodesOfType.length else sizeS,
                  insert link.motifLinkId seen))
    (some (NodeIterator.new i, pyMaxsize, ∅))).map (fun r => (r.1, r.2.1))

/-- One step of the setup loop of `find_motif` over the motif nodes
(lines 89-119 of motif_finder.py): build node `i`'s iterator and track the
node with the smallest initial list. -/
def setupFoldStep (net : NetworkV) (motif : MotifV)
    (acc : Option (List NodeIterator × Option Nat × Nat)) (i : Nat) :
    Option (List NodeIterator × Option Nat × Nat) :=
  match acc with
  | none => none
  | some (mp, best, bestSize) =>
      match setupIterator net motif i with
      | none => none
      | some (it, sizeS) =>
          if sizeS < bestSize then some (mp ++ [it], some i, sizeS)
          else some (mp ++ [it], best, bestSize)

/-- `MotifFinder.find_motif(motif, save_links)` with the analyzer output
passed explicitly (the `SymmetryHandler` constructor computes it; see
`findMotif`).  `used0` is the set of host nodes whose `used` flag is
already true when the search starts (empty for a freshly loaded network).
When no motif node contributed an initial restriction list,
`best_motif_node` stays `-1`; Python then reads `mapping[-1]` (the last
iterator, by negative indexing, or IndexError when the motif is empty) and
`get_node_set` raises IndexError on its empty `initial_lists` — a crash in
every case, modelled by `none`.  The result is the final search state; its
`instances` field lists the stored mapping of every emitted
`MotifInstance` in insertion order. -/
def findMotifWith (net : NetworkV) (motif : MotifV) (sym : SymmetryProperties)
    (saveLinks : Bool) (used0 : Finset Nat) : Option SState :=
  let setup := (List.range motif.n).foldl (setupFoldStep net motif)
    (some ([], none, pyMaxsize))
  match setup with
  | none => none
  | some (_, none, _) => none
  | some (mapping0, some best, _) =>
      let st0 : SState :=
        { used := used0,
          mappedNodes := List.replicate motif.n none,
          mapping := mapping0,
          pqMap := List.replicate motif.n PriorityQueue.emptyQ,
          mappedPositions := ∅,
          unmappedNodes := Finset.range motif.n,
          instances := [] }
      mapNext net motif sym saveLinks (motif.n + 1) best 0 st0

/-- `MotifFinder.find_motif(motif, save_links)`: construct the
`SymmetryHandler` (which runs the motif analysis and installs the
`smaller`/`larger` dictionaries) and run the recursive search from the
best start node. -/
def findMotif (net : NetworkV) (motif : MotifV) (saveLinks : Bool)
    (used0 : Finset Nat) : Option SState :=
  match analyzeMotif motif with
  | none => none
  | some sym => findMotifWith net motif sym saveLinks used0

/-! ## Concrete instances and the claims about the iterator and the search -/

/-- The single-undirected-edge motif, description string "A" with link type
`A u t t`: two nodes, one undirected link kind with `motif_link_id = 0` and
`link_type_id = 0` (the inverse motif link of an undirected type is the
forward link itself). -/
def edgeMotif : MotifV :=
  { n := 2, finalConnections := [[1], [0]],
    links := [[⟨0, 0, true⟩], [⟨0, 0, true⟩]], linkTypes := {0} }

/-- A host network with the single undirected edge between nodes 1 and 2:
`nodes_with_link` maps kind 0 to `[1, 2]`, and each node's neighbour list
for kind 0 holds the other node. -/
def edgeNet : NetworkV :=
  { byType := fun k => if k = 0 then some [1, 2] else none,
    nbr := fun v => if v = 1 then [[2]] else if v = 2 then [[1]] else [[]] }

/-- A permutation `p` of the motif nodes is an automorphism when it is a
bijection on `0..n-1` and maps every labeled incidence `(i, j, kind)` of
the motif to an incidence `(p i, p j, kind)`. -/
def isMotifAutomorphism (motif : MotifV) (p : List Nat) : Bool :=
  decide (p.length = motif.n) &&
  (List.range motif.n).all (fun i => decide (p.getD i 0 < motif.n)) &&
  decide p.Nodup &&
  (List.range motif.n).all (fun i =>
    let conns := motif.finalConnections.getD i []
    let lks := motif.links.getD i []
    (List.range conns.length).all (fun idx =>
      let j := conns.getD idx 0
      let ml := lks.getD idx ⟨0, 0, true⟩
      ((motif.finalConnections.getD (p.getD i 0) []).zip
        (motif.links.getD (p.getD i 0) [])).contains (p.getD j 0, ml)))

/-- Claim C2, evaluation of the code at the failing input: on the
single-edge host graph, `find_motif` for the single-undirected-edge motif
returns BOTH mappings (1,2) and (2,1), although they are related by the
swap automorphism of the motif — the symmetry constraint `0 < 1` computed
by the analyzer is not enforced, because `node_index` encodes a missed
lower bound as `-(last middle) - 1`, which decodes to an index one too
small, so `intersect` keeps the candidate below the bound. -/
theorem c2_find_motif_emits_automorphic_duplicates :
    (findMotif edgeNet edgeMotif false ∅).map SState.instances =
      some [[some 1, some 2], [some 2, some 1]] ∧
    isMotifAutomorphism edgeMotif [1, 0] = true ∧
    (∀ i < 2, [some 2, some 1].getD i none =
      [some 1, some 2].getD ([1, 0].getD i 0) none) := by
  refine ⟨by decide, by decide, by decide⟩

/-- Claim C3, evaluation of the code at the failing input: a setup-phase
iterator holding the two disjoint initial lists `[1]` and `[2]` returns
their union `[1, 2]` from `get_node_set` — the merged intersection built
by lines 126-159 is discarded and line 161 returns the union of the
initial lists, so the returned set contains node 2, which is not in the
intersection (it is missing from the first list). -/
theorem c3_get_node_set_returns_union :
    (((NodeIterator.new 0).addRestrictionList [1] none).addRestrictionList
        [2] none).getNodeSet = some [1, 2] ∧
    (((NodeIterator.new 0).addRestrictionList [1] none).addRestrictionList
        [2] none).data.initialLists = [[1], [2]] ∧
    ¬ (2 ∈ ([1] : List Nat)) := by
  refine ⟨rfl, rfl, by decide⟩

/-- Claim C3, the single-list case (which the code does handle as the claim
states): with exactly one initial list, `get_node_set` returns it. -/
theorem get_node_set_single_list (l : List Nat) (i : Nat) :
    ((NodeIterator.new i).addRestrictionList l none).getNodeSet = some l := by
  by_cases h : l.length < pyMaxsize <;>
    simp [NodeIterator.new, NodeIterator.addRestrictionList, NodeIterator.getNodeSet,
      NodeIterator.withData, NodeIterator.data, h]

/-- Claim C4, evaluation of the code at the failing input: an iterator
whose only pushed neighbour list is `[1]`, intersected with the open lower
bound `minimum = 2` (and no upper bound, nothing used), returns a child
whose candidate set is `[1]` — but `1 > 2` is false, so the claimed
candidate set is empty and the code should have returned `None`.  The root
cause is visible in the last conjunct: `node_index([1], 2)` returns `-1`,
which the caller decodes as insertion point 0, while the insertion point
of 2 in `[1]` is 1 (Java's encoding would be `-2`). -/
theorem c4_intersect_violates_lower_bound :
    ((((NodeIterator.new 0).addRestrictionList [1] (some 5)).intersect
        (some 2) none (fun _ => false)).2 =
      some (some (NodeIterator.child [1]
        ((NodeIterator.new 0).addRestrictionList [1] (some 5))))) ∧
    ¬ (2 < 1) ∧
    nodeIndex [1] 2 = some (-1) := by
  refine ⟨rfl, by decide, by decide⟩

/-- A host network holding a node 3 that has no neighbours of kind 0
(`neighbours_per_type = [[]]`), for the evaluation of claim C5. -/
def c5Net : NetworkV :=
  { byType := fun k => if k = 0 then some [3] else none,
    nbr := fun _ => [[]] }

/-- Claim C5, evaluation of the code at the failing input: mapping motif
node 0 to host node 3, whose neighbour list for the (required) link kind 0
is empty while motif neighbour 1 is still unmapped, `map_node` returns
True and pushes the empty list as a restriction — it does not return
False, because the guard at line 149 tests `links is None` and
`Node.__init__` fills `neighbours_per_type` with empty lists, never
`None`. -/
theorem c5_map_node_true_on_empty_neighbor_list :
    (c5Net.nbr 3).getD 0 [] = [] ∧
    (mapNodeStep edgeMotif c5Net 0 3
      ⟨∅, [none, none], [NodeIterator.new 0, NodeIterator.new 1],
        [PriorityQueue.emptyQ, PriorityQueue.emptyQ], ∅, {0, 1}, []⟩).2 = true ∧
    ((mapNodeStep edgeMotif c5Net 0 3
      ⟨∅, [none, none], [NodeIterator.new 0, NodeIterator.new 1],
        [PriorityQueue.emptyQ, PriorityQueue.emptyQ], ∅, {0, 1}, []⟩).1.mapping.getD 1
        (NodeIterator.new 1)).data.neighborLists = [[]] := by
  refine ⟨by decide, by decide, by decide⟩

/-! ## Motif construction (src/motifs/motif.py) -/

/-- A `LinkType` as far as motif construction observes it: its id, its
directedness and the dense ids of its two motif links (`motif_link` and
`inverse_motif_link`; for an undirected type both attributes reference the
same object). -/
structure LinkTypeV where
  linkTypeId : Nat
  directed : Bool
  forwardId : Nat
  inverseId : Nat
  deriving Repr, DecidableEq

/-- `link_type.motif_link` as a `MotifLinkV` (always the canonical forward
kind). -/
def LinkTypeV.motifLink (t : LinkTypeV) : MotifLinkV :=
  ⟨t.forwardId, t.linkTypeId, true⟩

/-- `link_type.inverse_motif_link`: for a directed type a distinct kind
(which is not its type's forward kind), for an undirected type the forward
link itself. -/
def LinkTypeV.inverseMotifLink (t : LinkTypeV) : MotifLinkV :=
  if t.directed then ⟨t.inverseId, t.linkTypeId, false⟩
  else ⟨t.forwardId, t.linkTypeId, true⟩

/-- Motif under construction: the n-by-n `links` matrix, the
`initial_connections` dictionary (`none` = key absent) and the set of
link-type ids. -/
structure MotifBuild where
  n : Nat
  linksM : List (List (Option MotifLinkV))
  conn : List (Option (List Nat))
  linkTypes : Finset Nat

/-- `Motif.__init__(number_of_motif_nodes)`. -/
def MotifBuild.init (n : Nat) : MotifBuild :=
  { n := n,
    linksM := List.replicate n (List.replicate n none),
    conn := List.replicate n none,
    linkTypes := ∅ }

/-- Entry assignment in the `links` matrix. -/
def msetLinks (m : List (List (Option MotifLinkV))) (i j : Nat)
    (v : MotifLinkV) : List (List (Option MotifLinkV)) :=
  m.set i ((m.getD i []).set j (some v))

/-- Append to `initial_connections[i]`, creating the entry when absent. -/
def connAppend (c : List (Option (List Nat))) (i j : Nat) :
    List (Option (List Nat)) :=
  c.set i (some (((c.getD i none).getD []) ++ [j]))

/-- `Motif.add_motif_link(start_node, end_node, link_type)`. -/
def MotifBuild.addMotifLink (b : MotifBuild) (startN endN : Nat)
    (t : LinkTypeV) : MotifBuild :=
  { b with
      linksM := msetLinks (msetLinks b.linksM startN endN t.motifLink)
        endN startN t.inverseMotifLink,
      conn := connAppend (connAppend b.conn startN endN) endN startN,
      linkTypes := insert t.linkTypeId b.linkTypes }

/-- `Motif.finalize_motif()`: turn `initial_connections` into
`final_connections` and rewrite `links[i]` into the parallel list of
`MotifLinkV`s.  The KeyError raised by `self.initial_connections[i]` for a
motif node with no connections is modelled by `.error`.  Every entry
`links[i][arr[j]]` is set (the connection was recorded by the same
`add_motif_link` call), so the default is unreachable. -/
def MotifBuild.finalize (b : MotifBuild) : Except String MotifV :=
  ((List.range b.n).foldl
    (fun (acc : Except String (List (List Nat) × List (List MotifLinkV))) i =>
      match acc with
      | .error e => .error e
      | .ok (fc, lk) =>
          match b.conn.getD i none with
          | none => .error "finalize keyerror"
          | some arr =>
              .ok (fc ++ [arr],
                lk ++ [arr.map (fun j =>
                  ((b.linksM.getD i []).getD j none).getD ⟨0, 0, true⟩)]))
    (.ok ([], []))).map
    (fun r => { n := b.n, finalConnections := r.1, links := r.2,
                linkTypes := b.linkTypes })

/-- The exact integer value of `int(math.ceil(math.sqrt(m)))`: the least
`k` with `k * k ≥ m` (the double-precision square root is correctly
rounded, hence exact, for every realistic string length; modelled as the
exact integer ceiling, computed by a structural search so that the kernel
can evaluate it). -/
def ceilSqrt (m : Nat) : Nat :=
  ((List.range (m + 2)).find? (fun k => m ≤ k * k)).getD 0

/-- The row-major position pairs (i, j) with 1 ≤ i < n, 0 ≤ j < i read by
`create_motif`, in reading order. -/
def charPairs (n : Nat) : List (Nat × Nat) :=
  ((List.range n).map (fun i => (List.range i).map (fun j => (i, j)))).flatten

/-- One character step of `create_motif` (lines 123-133): '0' adds
nothing; otherwise the character is translated (KeyError when absent) and
an uppercase character adds the link j → i, a lowercase one i → j. -/
def createMotifStep (t : Char → Option LinkTypeV)
    (acc : Except String MotifBuild) (pc : (Nat × Nat) × Char) :
    Except String MotifBuild :=
  match acc with
  | .error e => .error e
  | .ok b =>
      if pc.2 = '0' then .ok b
      else
        match t pc.2 with
        | none => .error "translation keyerror"
        | some lt =>
            if pc.2.isUpper then .ok (b.addMotifLink pc.1.2 pc.1.1 lt)
            else .ok (b.addMotifLink pc.1.1 pc.1.2 lt)

/-- `create_motif(motif_description, link_type_translation)`.  The length
check rejects exactly the strings whose length differs from
n(n-1)/2 for n = ceil(sqrt(2 L)) (the Python comparison is against the
float `n*(n-1)/2`, which is exact here since n(n-1) is even).  A character
with no entry in the translation dictionary raises KeyError, and
`finalize_motif` raises KeyError when some motif node received no link;
both are modelled as errors. -/
def createMotif (s : List Char) (t : Char → Option LinkTypeV) :
    Except String MotifV :=
  let n := ceilSqrt (2 * s.length)
  if s.length ≠ n * (n - 1) / 2 then .error "invalid length"
  else
    match ((charPairs n).zip s).foldl (createMotifStep t)
      (.ok (MotifBuild.init n)) with
    | .error e => .error e
    | .ok b => b.finalize

/-- The undirected link type `A u t t` of the running example. -/
def linkTypeA : LinkTypeV := ⟨0, false, 0, 1⟩

/-- Sanity check tying the hand-written `edgeMotif` to the real
constructor: parsing the motif description "A" with the undirected link
type A yields exactly `edgeMotif`. -/
theorem createMotif_edge :
    createMotif ['A'] (fun c => if c = 'A' then some linkTypeA else none) =
      .ok edgeMotif := by
  rfl

/-- Claim C9 counterexample: the description "0" has the valid length 1 =
n(n-1)/2 for n = ceil(sqrt(2)) = 2, yet `create_motif` raises — node 0 has
no connections, so `finalize_motif` hits a KeyError — where the claim says
every length-valid description is accepted and yields a motif with n
nodes. -/
theorem c9_valid_length_still_rejected :
    (['0'] : List Char).length = ceilSqrt (2 * 1) * (ceilSqrt (2 * 1) - 1) / 2 ∧
    createMotif ['0'] (fun c => if c = 'A' then some linkTypeA else none) =
      .error "finalize keyerror" := by
  exact ⟨by rfl, by rfl⟩

/-- The character fold of `create_motif` propagates errors. -/
theorem createMotifStep_foldl_error (t : Char → Option LinkTypeV)
    (l : List ((Nat × Nat) × Char)) (e : String) :
    l.foldl (createMotifStep t) (.error e) = .error e := by
  induction l with
  | nil => rfl
  | cons p rest ih => simpa [createMotifStep] using ih

/-- The character fold of `create_motif` never changes the node count. -/
theorem createMotifStep_foldl_n (t : Char → Option LinkTypeV)
    (l : List ((Nat × Nat) × Char)) (b : MotifBuild) (b2 : MotifBuild)
    (h : l.foldl (createMotifStep t) (.ok b) = .ok b2) : b2.n = b.n := by
  induction l generalizing b with
  | nil => cases h; rfl
  | cons p rest ih =>
      simp only [List.foldl_cons] at h
      by_cases hc : p.2 = '0'
      · rw [show createMotifStep t (.ok b) p = .ok b by
          simp [createMotifStep, hc]] at h
        exact ih b h
      · cases ht : t p.2 with
        | none =>
            rw [show createMotifStep t (.ok b) p = .error "translation keyerror" by
              simp [createMotifStep, hc, ht]] at h
            rw [createMotifStep_foldl_error] at h
            cases h
        | some lt =>
            by_cases hu : p.2.isUpper
            · rw [show createMotifStep t (.ok b) p =
                  .ok (b.addMotifLink p.1.2 p.1.1 lt) by
                simp [createMotifStep, hc, ht, hu]] at h
              have := ih _ h
              simpa [MotifBuild.addMotifLink] using this
            · rw [show createMotifStep t (.ok b) p =
                  .ok (b.addMotifLink p.1.1 p.1.2 lt) by
                simp [createMotifStep, hc, ht, hu]] at h
              have := ih _ h
              simpa [MotifBuild.addMotifLink] using this

/-- `finalize_motif` preserves the node count. -/
theorem finalize_n (b : MotifBuild) (m : MotifV)
    (h : b.finalize = .ok m) : m.n = b.n := by
  unfold MotifBuild.finalize at h
  cases hr : (List.range b.n).foldl
      (fun (acc : Except String (List (List Nat) × List (List MotifLinkV))) i =>
        match acc with
        | .error e => .error e
        | .ok (fc, lk) =>
            match b.conn.getD i none with
            | none => .error "finalize keyerror"
            | some arr =>
                .ok (fc ++ [arr],
                  lk ++ [arr.map (fun j =>
                    ((b.linksM.getD i []).getD j none).getD ⟨0, 0, true⟩)]))
      (.ok ([], [])) with
  | error e => rw [hr] at h; cases h
  | ok r => rw [hr] at h; simp only [Except.map] at h; cases h; rfl

/-- Claim C9 (amended): `create_motif(s, t)` rejects every `s` whose length
is not n(n-1)/2 for n = ceil(sqrt(2 len(s))), with the invalid-length
error; and every accepted `s` has a valid length and yields a motif with
exactly n nodes.  (The original claim's "rejects exactly when" fails: a
length-valid description can still be rejected, by a KeyError, when a
character has no translation or some motif node has no incident link; see
the counterexample.) -/
theorem c9_create_motif_length (s : List Char) (t : Char → Option LinkTypeV) :
    (s.length ≠ ceilSqrt (2 * s.length) * (ceilSqrt (2 * s.length) - 1) / 2 →
      createMotif s t = .error "invalid length") ∧
    (∀ m, createMotif s t = .ok m →
      m.n = ceilSqrt (2 * s.length) ∧
      s.length = m.n * (m.n - 1) / 2) := by
  constructor
  · intro h
    unfold createMotif
    rw [if_pos h]
  · intro m hm
    unfold createMotif at hm
    by_cases h : s.length = ceilSqrt (2 * s.length) * (ceilSqrt (2 * s.length) - 1) / 2
    · rw [if_neg (by omega)] at hm
      have hnm : m.n = ceilSqrt (2 * s.length) := by
        cases hfold : ((charPairs (ceilSqrt (2 * s.length))).zip s).foldl
            (createMotifStep t) (.ok (MotifBuild.init (ceilSqrt (2 * s.length)))) with
        | error e => rw [hfold] at hm; cases hm
        | ok b =>
            rw [hfold] at hm
            have hbn := createMotifStep_foldl_n t _ _ _ hfold
            rw [finalize_n b m hm, hbn]
            rfl
      exact ⟨hnm, by rw [hnm]; exact h⟩
    · rw [if_pos h] at hm
      cases hm

/-- Witness for `c9_create_motif_length`: the description "AA" (length 2,
but n = ceil(sqrt 4) = 2 requires length 1) is rejected with the
invalid-length error, and the accepted description "A" yields the 2-node
`edgeMotif`. -/
theorem c9_create_motif_length_witness :
    createMotif ['A', 'A'] (fun c => if c = 'A' then some linkTypeA else none) =
      .error "invalid length" ∧
    (edgeMotif.n = ceilSqrt (2 * (['A'] : List Char).length) ∧
      (['A'] : List Char).length = edgeMotif.n * (edgeMotif.n - 1) / 2) :=
  ⟨(c9_create_motif_length ['A', 'A']
      (fun c => if c = 'A' then some linkTypeA else none)).1 (by decide),
   (c9_create_motif_length ['A']
      (fun c => if c = 'A' then some linkTypeA else none)).2 edgeMotif (by rfl)⟩

/-! ## The result container (src/motifs/motif_instance.py and
src/algorithm/motif_finder.py lines 167-169)

`MotifInstance` defines neither `__eq__` nor `__hash__`, so the Python
`set` used for `instances` hashes and compares by object identity.  A
`MotifInstance` object is therefore modelled as its identity (the object
id) together with its stored mapping, and `set.add` compares
identities. -/

/-- A `MotifInstance` object: its Python object identity plus the stored
mapping. -/
structure MotifInstanceObj where
  objId : Nat
  mapping : List (Option Nat)
  deriving Repr, DecidableEq

/-- `instances.add(instance)` on the Python set of `MotifInstance`
objects: membership is object identity, because the class defines neither
`__eq__` nor `__hash__`. -/
def pySetMIAdd (s : List MotifInstanceObj) (x : MotifInstanceObj) :
    List MotifInstanceObj :=
  if s.any (fun e => e.objId = x.objId) then s else s ++ [x]

/-- Claim C7 counterexample: adding a freshly constructed `MotifInstance`
(new identity 1) whose mapping is element-wise equal to that of the
instance already in the set (identity 0) grows the set from 1 to 2
elements — the claim says the cardinality is unchanged.  (`_map_next` line
169 always constructs a fresh object, so every emission enlarges the
set.) -/
theorem c7_identity_set_does_not_deduplicate :
    (⟨0, [some 1, some 2]⟩ : MotifInstanceObj).mapping =
      (⟨1, [some 1, some 2]⟩ : MotifInstanceObj).mapping ∧
    (pySetMIAdd [⟨0, [some 1, some 2]⟩] ⟨1, [some 1, some 2]⟩).length = 2 ∧
    ([(⟨0, [some 1, some 2]⟩ : MotifInstanceObj)]).length = 1 := by
  exact ⟨rfl, rfl, rfl⟩

/-- Claim C7 (amended): the result container deduplicates by object
identity, not by mapping content — re-adding an object whose identity is
already present leaves the cardinality unchanged, while an object with a
fresh identity is always appended, even when its mapping is element-wise
equal to a stored one. -/
theorem c7_result_set_identity_semantics (s : List MotifInstanceObj)
    (x : MotifInstanceObj) :
    ((∃ e ∈ s, e.objId = x.objId) → (pySetMIAdd s x).length = s.length) ∧
    ((∀ e ∈ s, e.objId ≠ x.objId) → (pySetMIAdd s x).length = s.length + 1) := by
  constructor
  · intro h
    unfold pySetMIAdd
    rw [if_pos]
    simp only [List.any_eq_true, decide_eq_true_eq]
    obtain ⟨e, he, hid⟩ := h
    exact ⟨e, he, hid⟩
  · intro h
    unfold pySetMIAdd
    rw [if_neg (by
      simp only [List.any_eq_true, decide_eq_true_eq, not_exists, not_and]
      exact h)]
    simp

/-- Witness for `c7_result_set_identity_semantics` at concrete inputs:
re-adding identity 0 keeps cardinality 1; adding fresh identity 1 gives
cardinality 2. -/
theorem c7_result_set_identity_semantics_witness :
    (pySetMIAdd [⟨0, [some 1]⟩] ⟨0, [some 2]⟩).length = 1 ∧
    (pySetMIAdd [⟨0, [some 1]⟩] ⟨1, [some 1]⟩).length = 1 + 1 :=
  ⟨(c7_result_set_identity_semantics [⟨0, [some 1]⟩] ⟨0, [some 2]⟩).1
      ⟨⟨0, [some 1]⟩, by decide, rfl⟩,
   (c7_result_set_identity_semantics [⟨0, [some 1]⟩] ⟨1, [some 1]⟩).2
      (by decide)⟩

/-! ## MotifInstance stores a copy of the mapping
(src/motifs/motif_instance.py lines 30-42)

The aliasing-sensitive content of claim C10 needs list objects with
identity: a small heap of Python list objects, addressed by index, with
in-place element assignment. -/

/-- A heap of Python list objects (the lists' elements are host-node
references, modelled as ids; `none` is Python `None`). -/
structure PyListHeap where
  lists : List (List (Option Nat))
  deriving Repr, DecidableEq

/-- Dereference a list object. -/
def heapGet (h : PyListHeap) (r : Nat) : List (Option Nat) :=
  h.lists.getD r []

/-- In-place element assignment `lists[r][i] = v` — the mutation
`mapped_nodes[motif_node] = None` (or a node) performed by `_map_next`
during backtracking after an instance was emitted. -/
def heapSetIdx (h : PyListHeap) (r i : Nat) (v : Option Nat) : PyListHeap :=
  ⟨h.lists.set r ((h.lists.getD r []).set i v)⟩

/-- `MotifInstance.__init__(mapping)` for a non-None argument: the
instance stores `mapping.copy()`, i.e. the VALUE of the referenced list at
construction time (a fresh list object with the same element references),
not the reference `r` itself. -/
def motifInstanceInit (h : PyListHeap) (r : Nat) : List (Option Nat) :=
  heapGet h r

/-- `MotifInstance.__str__`: the `;`-join of the descriptions of the
mapped nodes, via an immutable description map. -/
def motifInstanceStr (descr : Nat → String) (mapping : List (Option Nat)) :
    String :=
  String.intercalate ";"
    (mapping.map (fun o => match o with | none => "None" | some v => descr v))

/-- Claim C10: the instance constructed from list object `r` keeps the
list's value at construction time; the backtracking mutation
`lists[r][i] = v` changes what the reference `r` yields (third conjunct,
showing the copy is not vacuous) but neither the instance's stored mapping
nor its serialized form, which are determined by the pre-mutation value
(first two conjuncts). -/
theorem c10_motif_instance_copies_mapping (h : PyListHeap) (r i : Nat)
    (v : Option Nat) (descr : Nat → String) :
    motifInstanceInit h r = heapGet h r ∧
    motifInstanceStr descr (motifInstanceInit h r) =
      motifInstanceStr descr (heapGet h r) ∧
    (i < (heapGet h r).length → r < h.lists.length →
      (heapGet h r).getD i none ≠ v →
      heapGet (heapSetIdx h r i v) r ≠ motifInstanceInit h r) := by
  refine ⟨rfl, rfl, ?_⟩
  intro hi hr hne heq
  apply hne
  have h1 : heapGet (heapSetIdx h r i v) r = (heapGet h r).set i v := by
    unfold heapGet heapSetIdx
    simp only
    rw [List.getD_eq_getElem?_getD, List.getElem?_set_eq_of_lt _ hr]
    rfl
  rw [h1] at heq
  have h2 := congrArg (fun l => l.getD i none) heq
  simp only at h2
  rw [List.getD_eq_getElem?_getD, List.getElem?_set_eq_of_lt _ hi] at h2
  simpa [motifInstanceInit] using h2.symm

/-- Witness for `c10_motif_instance_copies_mapping`: one list object
`[some 1, some 2]`, mutated at index 0 to `None` — the dereferenced list
changes, the snapshot does not. -/
theorem c10_motif_instance_copies_mapping_witness :
    motifInstanceInit ⟨[[some 1, some 2]]⟩ 0 = heapGet ⟨[[some 1, some 2]]⟩ 0 ∧
    motifInstanceStr (fun v => toString v) (motifInstanceInit ⟨[[some 1, some 2]]⟩ 0) =
      motifInstanceStr (fun v => toString v) (heapGet ⟨[[some 1, some 2]]⟩ 0) ∧
    heapGet (heapSetIdx ⟨[[some 1, some 2]]⟩ 0 0 none) 0 ≠
      motifInstanceInit ⟨[[some 1, some 2]]⟩ 0 := by
  have h := c10_motif_instance_copies_mapping ⟨[[some 1, some 2]]⟩ 0 0 none
    (fun v => toString v)
  exact ⟨h.1, h.2.1, h.2.2 (by decide) (by decide) (by decide)⟩

/-! ## Invariants of the search state and claims C1 / C6

The two claims about `find_motif` as a whole — injectivity of every
emitted mapping (C1) and restoration of all `used` flags (C6) — are proved
by one induction over the recursion of `_map_next`, for an arbitrary
analyzer output, and instantiated at `findMotif`. -/

/-- Characterization of `getD` through `set`. -/
theorem listGetD_set {α : Type} (l : List α) (i j : Nat) (v d : α) :
    (l.set i v).getD j d = if j = i ∧ i < l.length then v else l.getD j d := by
  by_cases hj : j = i
  · subst hj
    by_cases hi : j < l.length
    · simp only [hi, and_true, if_pos rfl]
      rw [List.getD_eq_getElem?_getD, List.getElem?_set_eq_of_lt _ hi]
      rfl
    · rw [List.set_eq_of_length_le (by omega)]
      simp [hi]
  · rw [if_neg (by tauto)]
    rw [List.getD_eq_getElem?_getD, List.getD_eq_getElem?_getD,
      List.getElem?_set_ne (by omega)]

/-- Setting an entry that already reads as `none` (by `getD`) to `none` is
the identity. -/
theorem listSet_none_of_getD_none (l : List (Option Nat)) (i : Nat)
    (h : l.getD i none = none) : l.set i none = l := by
  apply List.ext_getElem?
  intro n
  by_cases hn : n = i
  · subst hn
    by_cases hl : n < l.length
    · rw [List.getElem?_set_eq_of_lt _ hl]
      rw [List.getD_eq_getElem?_getD, List.getElem?_eq_getElem hl] at h
      rw [List.getElem?_eq_getElem hl]
      simp only [Option.getD] at h
      rw [h]
    · rw [List.set_eq_of_length_le (by omega)]
  · rw [List.getElem?_set_ne (by omega)]

/-- Injectivity of a partial mapping array on its assigned positions. -/
def mappedInj (m : List (Option Nat)) : Prop :=
  ∀ i j u, m.getD i none = some u → m.getD j none = some u → i = j

/-- Every mapped host node has its `used` flag set. -/
def mappedUsed (m : List (Option Nat)) (used : Finset Nat) : Prop :=
  ∀ i u, m.getD i none = some u → u ∈ used

/-- Every priority object stored in sub-heap `i` has `to_position = i`
(it was added by `PriorityQueueMap.add`, which indexes by
`to_position`). -/
def pqMapOk (pqm : List PriorityQueue) : Prop :=
  ∀ i obj, obj ∈ (pqm.getD i PriorityQueue.emptyQ).pq → obj.toPosition = i

/-- The iterator stored at position `i` carries `motif_node_id = i`. -/
def mappingOk (mp : List NodeIterator) : Prop :=
  ∀ i, (mp.getD i (NodeIterator.new i)).data.motifNodeId = i

/-- Unmapped positions hold no node. -/
def unmappedNone (st : SState) : Prop :=
  ∀ i ∈ st.unmappedNodes, st.mappedNodes.getD i none = none

/-- Setting a fresh node (one not assigned anywhere) preserves
injectivity. -/
theorem mappedInj_set (m : List (Option Nat)) (p nd : Nat)
    (hm : mappedInj m) (hnd : ∀ i, m.getD i none ≠ some nd) :
    mappedInj (m.set p (some nd)) := by
  intro i j u hi hj
  rw [listGetD_set] at hi hj
  by_cases hip : i = p ∧ p < m.length <;> by_cases hjp : j = p ∧ p < m.length
  · rw [hip.1, hjp.1]
  · rw [if_pos hip] at hi
    rw [if_neg hjp] at hj
    cases hi
    exact absurd hj (hnd j)
  · rw [if_neg hip] at hi
    rw [if_pos hjp] at hj
    cases hj
    exact absurd hi (hnd i)
  · rw [if_neg hip] at hi
    rw [if_neg hjp] at hj
    exact hm i j u hi hj

/-! Membership lemmas for the heap primitives: the sift procedures only
write elements read from the heap or the new item. -/

/-- `siftdownGo` preserves the heap length. -/
theorem length_siftdownGo (fuel : Nat) :
    ∀ (heap : List PriorityObject) (s pos : Nat) (item : PriorityObject),
      (siftdownGo fuel heap s pos item).length = heap.length := by
  induction fuel with
  | zero => intro heap s pos item; simp [siftdownGo]
  | succ fuel ih =>
      intro heap s pos item
      simp only [siftdownGo]
      split
      · split
        · rw [ih]; simp
        · simp
      · simp

/-- Elements of `siftdownGo` come from the heap or are the new item
(for an in-bounds start position). -/
theorem mem_siftdownGo (fuel : Nat) :
    ∀ (heap : List PriorityObject) (s pos : Nat) (item x : PriorityObject),
      pos < heap.length → x ∈ siftdownGo fuel heap s pos item →
      x ∈ heap ∨ x = item := by
  induction fuel with
  | zero =>
      intro heap s pos item x _ hx
      simp only [siftdownGo] at hx
      exact List.mem_or_eq_of_mem_set hx
  | succ fuel ih =>
      intro heap s pos item x hpos hx
      simp only [siftdownGo] at hx
      split at hx
      · rename_i hlt
        split at hx
        · have hpar : (pos - 1) / 2 < heap.length := by omega
          have hparmem : heap.getD ((pos - 1) / 2) poDefault ∈ heap := by
            rw [List.getD_eq_getElem?_getD, List.getElem?_eq_getElem hpar]
            exact Or.elim (Or.inl (List.getElem_mem hpar)) id id
          have := ih (heap.set pos (heap.getD ((pos - 1) / 2) poDefault))
            s ((pos - 1) / 2) item x (by rw [List.length_set]; omega) hx
          rcases this with hmem | hitem
          · rcases List.mem_or_eq_of_mem_set hmem with h1 | h2
            · exact Or.inl h1
            · exact Or.inl (h2 ▸ hparmem)
          · exact Or.inr hitem
        · exact List.mem_or_eq_of_mem_set hx
      · exact List.mem_or_eq_of_mem_set hx

/-- `siftupGo` preserves the heap length when started in bounds. -/
theorem length_siftupGo (fuel : Nat) :
    ∀ (heap : List PriorityObject) (s pos endpos : Nat) (item : PriorityObject),
      (siftupGo fuel heap s pos endpos item).length = heap.length := by
  induction fuel with
  | zero => intro heap s pos endpos item; rfl
  | succ fuel ih =>
      intro heap s pos endpos item
      simp only [siftupGo]
      split
      · rw [ih]; simp
      · rw [length_siftdownGo]; simp

/-- Elements of `siftupGo` come from the heap or are the new item (for
`pos < endpos ≤ heap.length`). -/
theorem mem_siftupGo (fuel : Nat) :
    ∀ (heap : List PriorityObject) (s pos endpos : Nat) (item x : PriorityObject),
      pos < endpos → endpos ≤ heap.length → x ∈ siftupGo fuel heap s pos endpos item →
      x ∈ heap ∨ x = item := by
  induction fuel with
  | zero =>
      intro heap s pos endpos item x _ _ hx
      exact Or.inl hx
  | succ fuel ih =>
      intro heap s pos endpos item x hpos hend hx
      simp only [siftupGo] at hx
      split at hx
      · rename_i hguard
        set childpos2 :=
          if 2 * pos + 1 + 1 < endpos &&
              !(poLt (heap.getD (2 * pos + 1) poDefault)
                (heap.getD (2 * pos + 1 + 1) poDefault)) then
            2 * pos + 1 + 1
          else 2 * pos + 1 with hc2
        have hc2lt : childpos2 < endpos := by
          rw [hc2]
          split
          · rename_i hsp
            have := (Bool.and_eq_true _ _).mp hsp
            exact of_decide_eq_true (this.1)
          · exact hguard
        have hc2heap : heap.getD childpos2 poDefault ∈ heap := by
          have : childpos2 < heap.length := by omega
          rw [List.getD_eq_getElem?_getD, List.getElem?_eq_getElem this]
          exact Or.elim (Or.inl (List.getElem_mem this)) id id
        have := ih (heap.set pos (heap.getD childpos2 poDefault)) s childpos2
          endpos item x hc2lt (by rw [List.length_set]; omega) hx
        rcases this with hmem | hitem
        · rcases List.mem_or_eq_of_mem_set hmem with h1 | h2
          · exact Or.inl h1
          · exact Or.inl (h2 ▸ hc2heap)
        · exact Or.inr hitem
      · have := mem_siftdownGo (pos + 1) (heap.set pos item) s pos item x
          (by rw [List.length_set]; omega) hx
        rcases this with hmem | hitem
        · rcases List.mem_or_eq_of_mem_set hmem with h1 | h2
          · exact Or.inl h1
          · exact Or.inr h2
        · exact Or.inr hitem

/-- Elements of `heappush` come from the heap or are the pushed item. -/
theorem mem_heappush (heap : List PriorityObject) (item x : PriorityObject)
    (hx : x ∈ heappush heap item) : x ∈ heap ∨ x = item := by
  unfold heappush at hx
  have := mem_siftdownGo (heap.length + 1) (heap ++ [item]) 0 heap.length item x
    (by simp) hx
  rcases this with hmem | hitem
  · rcases List.mem_append.mp hmem with h1 | h2
    · exact Or.inl h1
    · exact Or.inr (List.mem_singleton.mp h2)
  · exact Or.inr hitem

/-- Elements of `heapifyList` come from the heap. -/
theorem mem_heapifyList (heap : List PriorityObject) (x : PriorityObject)
    (hx : x ∈ heapifyList heap) : x ∈ heap := by
  unfold heapifyList at hx
  have key : ∀ (l : List Nat) (cur : List PriorityObject),
      (∀ i ∈ l, i < cur.length) → (∀ y ∈ cur, y ∈ heap) →
      ∀ y ∈ l.foldl
        (fun h i => siftupGo (h.length + 1) h i i h.length (h.getD i poDefault)) cur,
      y ∈ heap := by
    intro l
    induction l with
    | nil => intro cur _ hsub y hy; exact hsub y hy
    | cons i rest ihl =>
        intro cur hbounds hsub y hy
        simp only [List.foldl_cons] at hy
        by_cases hicur : i < cur.length
        · refine ihl _ ?_ ?_ y hy
          · intro j hj
            rw [length_siftupGo]
            exact hbounds j (List.mem_cons_of_mem _ hj)
          · intro z hz
            have hitem : cur.getD i poDefault ∈ cur := by
              rw [List.getD_eq_getElem?_getD, List.getElem?_eq_getElem hicur]
              exact Or.elim (Or.inl (List.getElem_mem hicur)) id id
            rcases mem_siftupGo (cur.length + 1) cur i i cur.length
                (cur.getD i poDefault) z hicur (le_refl _) hz with h1 | h2
            · exact hsub z h1
            · exact hsub _ (h2 ▸ hitem)
        · exact absurd (hbounds i (List.mem_cons_self i rest)) hicur
  refine key _ heap ?_ (fun y hy => hy) x hx
  intro i hi
  rw [List.mem_reverse, List.mem_range] at hi
  omega

/-- Elements after `PriorityQueue.add` come from the queue or are the
added element. -/
theorem mem_pq_add (q : PriorityQueue) (e obj : PriorityObject)
    (h : obj ∈ (q.add e).pq) : obj ∈ q.pq ∨ obj = e :=
  mem_heappush q.pq e obj h

/-- Elements after `PriorityQueue.remove_motif_node` come from the
queue. -/
theorem mem_pq_removeMotifNode (q q2 : PriorityQueue) (mn : Nat)
    (h : q.removeMotifNode mn = some q2) (obj : PriorityObject)
    (hobj : obj ∈ q2.pq) : obj ∈ q.pq := by
  unfold PriorityQueue.removeMotifNode at h
  cases hg : assocGet q.motifMap mn with
  | none => rw [hg] at h; cases h; exact hobj
  | some o =>
      rw [hg] at h
      dsimp only at h
      cases hro : pqRemoveObject q.pq o with
      | none => rw [hro] at h; cases h
      | some pq2 =>
          rw [hro] at h
          cases h
          unfold pqRemoveObject at hro
          cases hfi : q.pq.findIdx? (fun x => x = o) with
          | none => rw [hfi] at hro; cases hro
          | some i =>
              rw [hfi] at hro
              cases hro
              have := mem_heapifyList _ _ hobj
              exact List.mem_of_mem_eraseIdx this

/-- `pqMapOk` is preserved by registering a priority object at the index
equal to its `to_position` (the update performed by `map_node`). -/
theorem pqMapOk_set_add (pqm : List PriorityQueue) (c : Nat)
    (e : PriorityObject) (hok : pqMapOk pqm) (he : e.toPosition = c) :
    pqMapOk (pqm.set c ((pqm.getD c PriorityQueue.emptyQ).add e)) := by
  intro i obj hobj
  rw [listGetD_set] at hobj
  by_cases hic : i = c ∧ c < pqm.length
  · rw [if_pos hic] at hobj
    rcases mem_pq_add _ _ _ hobj with h1 | h2
    · rw [hic.1]; exact hok c obj h1
    · rw [h2, he, hic.1]
  · rw [if_neg hic] at hobj
    exact hok i obj hobj

/-- `pqMapOk` is preserved by the removal performed during backtracking. -/
theorem pqMapOk_set_remove (pqm : List PriorityQueue) (c : Nat) (mn : Nat)
    (q2 : PriorityQueue) (hok : pqMapOk pqm)
    (hrem : (pqm.getD c PriorityQueue.emptyQ).removeMotifNode mn = some q2) :
    pqMapOk (pqm.set c q2) := by
  intro i obj hobj
  rw [listGetD_set] at hobj
  by_cases hic : i = c ∧ c < pqm.length
  · rw [if_pos hic] at hobj
    rw [hic.1]
    exact hok c obj (mem_pq_removeMotifNode _ _ _ hrem obj hobj)
  · rw [if_neg hic] at hobj
    exact hok i obj hobj

/-- The element returned by `poll` sits in one of the queues whose index
was passed, so under `pqMapOk` its `to_position` is in the index list. -/
theorem pqmPoll_toPosition (pqm : List PriorityQueue) (indices : List Nat)
    (p : PriorityObject) (h : pqmPoll pqm indices = some (some p))
    (hok : pqMapOk pqm) : p.toPosition ∈ indices := by
  unfold pqmPoll at h
  cases indices with
  | nil => cases h
  | cons first rest =>
      dsimp only at h
      have key : ∀ (l : List Nat) (acc : PriorityQueue × Nat),
          (∃ e, (e = first ∨ e ∈ rest) ∧ acc.1 = pqm.getD e PriorityQueue.emptyQ) →
          (∀ e ∈ l, e = first ∨ e ∈ rest) →
          ∃ e, (e = first ∨ e ∈ rest) ∧
            (l.foldl
              (fun (acc : PriorityQueue × Nat) e =>
                let nextPq := pqm.getD e PriorityQueue.emptyQ
                match nextPq.peek with
                | none => acc
                | some o => if o.numNeighbors < acc.2 then (nextPq, o.numNeighbors)
                    else acc) acc).1 = pqm.getD e PriorityQueue.emptyQ := by
        intro l
        induction l with
        | nil => intro acc hacc _; exact hacc
        | cons a as ihl =>
            intro acc hacc hsub
            simp only [List.foldl_cons]
            refine ihl _ ?_ (fun e he => hsub e (List.mem_cons_of_mem _ he))
            cases hpk : (pqm.getD a PriorityQueue.emptyQ).peek with
            | none => simpa [hpk] using hacc
            | some o =>
                simp only [hpk]
                split
                · exact ⟨a, hsub a (List.mem_cons_self a as), rfl⟩
                · exact hacc
      obtain ⟨e, he, hfin⟩ := key rest
        (pqm.getD first PriorityQueue.emptyQ,
          match (pqm.getD first PriorityQueue.emptyQ).peek with
          | none => pyMaxsize
          | some o => o.numNeighbors)
        ⟨first, Or.inl rfl, rfl⟩ (fun e he => Or.inr he)
      rw [hfin] at h
      have hpk : (pqm.getD e PriorityQueue.emptyQ).pq.head? = some p := by
        unfold PriorityQueue.peek at h
        injection h
      have hp : p ∈ (pqm.getD e PriorityQueue.emptyQ).pq :=
        List.mem_of_mem_head? hpk
      rw [hok e p hp]
      rcases he with h1 | h2
      · rw [h1]; exact List.mem_cons_self _ _
      · exact List.mem_cons_of_mem _ h2

/-- `withData` replaces exactly the record part. -/
theorem withData_data (it : NodeIterator) (d : NIData) : (it.withData d).data = d := by
  cases it; rfl

/-- A child iterator's candidate list is returned by `get_node_set`. -/
theorem child_getNodeSet (ns : List Nat) (p : NodeIterator) :
    (NodeIterator.child ns p).getNodeSet = some ns := rfl

/-- Specification of `intersect` as used by the search invariants: the
mutated parent keeps its `motif_node_id`, and a returned child inherits
it, points back to the mutated parent, and carries only candidates whose
`used` flag is false. -/
theorem intersect_spec (it : NodeIterator) (mn mx : Option Nat)
    (usedF : Nat → Bool) (it2 : NodeIterator) (res : Option (Option NodeIterator))
    (h : it.intersect mn mx usedF = (it2, res)) :
    it2.data.motifNodeId = it.data.motifNodeId ∧
    ∀ child, res = some (some child) →
      child.data.motifNodeId = it.data.motifNodeId ∧
      child.parent = some it2 ∧
      ∃ ns, child.data.nodes = some ns ∧ ∀ v ∈ ns, usedF v = false := by
  unfold NodeIterator.intersect at h
  dsimp only at h
  split at h
  · injection h with h1 h2
    subst h1
    refine ⟨rfl, ?_⟩
    intro child hc
    rw [← h2] at hc
    cases hc
  · split at h
    · injection h with h1 h2
      subst h1
      refine ⟨by rw [withData_data], ?_⟩
      intro child hc
      rw [← h2] at hc
      cases hc
    · split at h
      · injection h with h1 h2
        subst h1
        refine ⟨by rw [withData_data], ?_⟩
        intro child hc
        rw [← h2] at hc
        cases hc
      · split at h
        · injection h with h1 h2
          subst h1
          refine ⟨by rw [withData_data], ?_⟩
          intro child hc
          rw [← h2] at hc
          cases hc
        · injection h with h1 h2
          subst h1
          refine ⟨by rw [withData_data], ?_⟩
          intro child hc
          rw [← h2] at hc
          injection hc with hc1
          injection hc1 with hc2
          subst hc2
          refine ⟨by cases it; rfl, rfl, ?_⟩
          refine ⟨_, rfl, ?_⟩
          intro v hv
          simp only [intersectFilter] at hv
          have hp := List.mem_filter.mp hv
          have := hp.2
          rw [Bool.and_eq_true] at this
          have := this.1
          simpa using this

/-- Membership in the ascending listing of a finite set. -/
theorem mem_sortedAsc (s : Finset Nat) (a : Nat) :
    a ∈ sortedAsc s ↔ a ∈ s := by
  rcases s with ⟨v, hv⟩
  induction v using Quotient.inductionOn with
  | h l =>
      show a ∈ l.insertionSort (· ≤ ·) ↔ _
      rw [(List.perm_insertionSort (· ≤ ·) l).mem_iff]
      simp [Finset.mem_mk]

/-- A precomputed candidate list is what `get_node_set` returns. -/
theorem getNodeSet_of_nodes (it : NodeIterator) (ns : List Nat)
    (h : it.data.nodes = some ns) : it.getNodeSet = some ns := by
  unfold NodeIterator.getNodeSet
  rw [h]

/-- `add_restriction_list` never touches `motif_node_id`. -/
theorem addRestrictionList_motifNodeId (it : NodeIterator) (l : List Nat)
    (node : Option Nat) :
    (it.addRestrictionList l node).data.motifNodeId = it.data.motifNodeId := by
  cases it
  unfold NodeIterator.addRestrictionList
  cases node <;> dsimp only <;> split <;> rfl

/-- `remove_restriction_list` never touches `motif_node_id`. -/
theorem removeRestrictionList_motifNodeId (it : NodeIterator) (nid : Nat) :
    (it.removeRestrictionList nid).data.motifNodeId = it.data.motifNodeId := by
  cases it
  rfl

/-- `mappingOk` after storing an iterator that carries the right id. -/
theorem mappingOk_set (mp : List NodeIterator) (i : Nat) (v : NodeIterator)
    (hok : mappingOk mp) (hv : v.data.motifNodeId = i) :
    mappingOk (mp.set i v) := by
  intro j
  rw [listGetD_set]
  by_cases hji : j = i ∧ i < mp.length
  · rw [if_pos hji, hji.1, hv]
  · rw [if_neg hji]
    exact hok j

/-- `mappedUsed` after assigning a fresh host node and setting its flag. -/
theorem mappedUsed_set_insert (m : List (Option Nat)) (used : Finset Nat)
    (p nd : Nat) (h : mappedUsed m used) :
    mappedUsed (m.set p (some nd)) (insert nd used) := by
  intro i u hi
  rw [listGetD_set] at hi
  by_cases hip : i = p ∧ p < m.length
  · rw [if_pos hip] at hi
    cases hi
    exact Finset.mem_insert_self _ _
  · rw [if_neg hip] at hi
    exact Finset.mem_insert_of_mem (h i u hi)

/-- `getD` on a replicated list is the replicated value. -/
theorem getD_replicate_none (n i : Nat) :
    (List.replicate n (none : Option Nat)).getD i none = none := by
  rw [List.getD_eq_getElem?_getD, List.getElem?_replicate]
  split <;> rfl

/-- `getD` on a replicated list with the same default. -/
theorem getD_replicate_self {α : Type} (a : α) (n i : Nat) :
    (List.replicate n a).getD i a = a := by
  rw [List.getD_eq_getElem?_getD, List.getElem?_replicate]
  split <;> rfl

/-- The search never records a position as both mapped and unmapped. -/
def posDisj (st : SState) : Prop :=
  ∀ i ∈ st.unmappedNodes, i ∉ st.mappedPositions

/-- A fold preserves any property preserved by each of its steps. -/
theorem foldl_pres_mem {α : Type} {β : Type} (P : α → Prop) :
    ∀ (l : List β) (f : α → β → α),
      (∀ a b, b ∈ l → P a → P (f a b)) → ∀ a, P a → P (l.foldl f a)
  | [], _, _, _, ha => ha
  | b :: rest, f, hf, a, ha =>
      foldl_pres_mem P rest f
        (fun a' b' hb' => hf a' b' (List.mem_cons_of_mem _ hb'))
        (f a b) (hf a b (List.mem_cons_self _ _) ha)

/-- A fold whose step is absorbing at `none` stays at `none`. -/
theorem foldl_none {α : Type} {β : Type} (f : Option α → β → Option α)
    (hnone : ∀ b, f none b = none) :
    ∀ l : List β, l.foldl f none = none
  | [] => rfl
  | b :: rest => by
      rw [List.foldl_cons, hnone b]
      exact foldl_none f hnone rest

/-- Fold preservation for an `Option`-valued accumulator whose step is
absorbing at `none`. -/
theorem foldl_pres_option {α : Type} {β : Type} (P : α → Prop)
    (f : Option α → β → Option α) (hnone : ∀ b, f none b = none) :
    ∀ (l : List β),
      (∀ a b a', b ∈ l → f (some a) b = some a' → P a → P a') →
      ∀ a0 a1, l.foldl f (some a0) = some a1 → P a0 → P a1 := by
  intro l
  induction l with
  | nil =>
      intro _ a0 a1 h ha
      rw [List.foldl_nil] at h
      injection h with h
      rw [← h]
      exact ha
  | cons b rest ih =>
      intro hf a0 a1 h ha
      rw [List.foldl_cons] at h
      cases hfb : f (some a0) b with
      | none =>
          rw [hfb, foldl_none f hnone rest] at h
          cases h
      | some a' =>
          rw [hfb] at h
          exact ih (fun x y z hy => hf x y z (List.mem_cons_of_mem _ hy)) a' a1 h
            (hf a0 b a' (List.mem_cons_self _ _) hfb ha)

/-- Specification of `get_next_best_iterator` as used by the search
invariants: on a non-crashing return the state is unchanged except for the
in-place iterator mutation of `intersect` (which preserves the length and
ids of the `mapping` array), and a returned child iterator carries the
polled motif node id — an unmapped, in-range position — a candidate list
of unused host nodes, and a parent whose id is the same. -/
theorem gnbi_spec (sym : SymmetryProperties) (st st2 : SState)
    (r : Option NodeIterator)
    (h : getNextBestIteratorStep sym st = some (st2, r))
    (hpq : pqMapOk st.pqMap) (hmo : mappingOk st.mapping) :
    st2.used = st.used ∧ st2.mappedNodes = st.mappedNodes ∧
    st2.unmappedNodes = st.unmappedNodes ∧
    st2.mappedPositions = st.mappedPositions ∧
    st2.pqMap = st.pqMap ∧ st2.instances = st.instances ∧
    st2.mapping.length = st.mapping.length ∧ mappingOk st2.mapping ∧
    ∀ child, r = some child →
      child.data.motifNodeId ∈ st.unmappedNodes ∧
      child.data.motifNodeId < st.mapping.length ∧
      (child.parent.getD
          (NodeIterator.new child.data.motifNodeId)).data.motifNodeId
        = child.data.motifNodeId ∧
      ∃ ns, child.data.nodes = some ns ∧ ∀ v ∈ ns, v ∉ st.used := by
  unfold getNextBestIteratorStep at h
  split at h
  · cases h
  · cases h
  next p hpoll =>
    dsimp only at h
    split at h
    next hm =>
      have hget : st.mapping.get ⟨p.toPosition, hm⟩ =
          st.mapping.getD p.toPosition (NodeIterator.new p.toPosition) := by
        rw [List.get_eq_getElem, List.getD_eq_getElem?_getD,
          List.getElem?_eq_getElem hm]
        rfl
      have hid : (st.mapping.get ⟨p.toPosition, hm⟩).data.motifNodeId
          = p.toPosition := by
        rw [hget]
        exact hmo p.toPosition
      have hmem : p.toPosition ∈ st.unmappedNodes :=
        (mem_sortedAsc _ _).mp (pqmPoll_toPosition _ _ _ hpoll hpq)
      split at h
      · cases h
      next minVal hminEq =>
        split at h
        · cases h
        · -- conflicting bounds: Python returns None, the state untouched
          injection h with h1
          injection h1 with h2 h3
          subst h2
          subst h3
          refine ⟨rfl, rfl, rfl, rfl, rfl, rfl, rfl, hmo, ?_⟩
          intro child hc
          cases hc
        next maxVal hmaxEq =>
          split at h
          · cases h
          next r' hir =>
            injection h with h1
            injection h1 with h2 h3
            subst h2
            subst h3
            obtain ⟨hpar, hchild⟩ :=
              intersect_spec (st.mapping.get ⟨p.toPosition, hm⟩) minVal maxVal
                (fun v => decide (v ∈ st.used))
                ((st.mapping.get ⟨p.toPosition, hm⟩).intersect minVal maxVal
                  (fun v => decide (v ∈ st.used))).1
                ((st.mapping.get ⟨p.toPosition, hm⟩).intersect minVal maxVal
                  (fun v => decide (v ∈ st.used))).2
                rfl
            refine ⟨rfl, rfl, rfl, rfl, rfl, rfl, List.length_set _ _ _, ?_, ?_⟩
            · exact mappingOk_set _ _ _ hmo (by rw [hpar, hid])
            · intro child hc
              subst hc
              obtain ⟨hcid, hcp, ns, hns, hnu⟩ := hchild child hir
              have hcid' : child.data.motifNodeId = p.toPosition := by
                rw [hcid, hid]
              refine ⟨by rw [hcid']; exact hmem, by rw [hcid']; exact hm, ?_,
                ns, hns, ?_⟩
              · rw [hcp, Option.getD_some, hpar, hid, hcid']
              · intro v hv
                have := hnu v hv
                simpa using this
    next hm => cases h

/-- `map_node` always returns True (see the docstring of `mapNodeStep`). -/
theorem mapNodeStep_snd (motif : MotifV) (net : NetworkV)
    (motifNode graphNode : Nat) (st : SState) :
    (mapNodeStep motif net motifNode graphNode st).2 = true := rfl

/-- `map_node` only touches the `mapping` and `pq_map` arrays, preserving
their lengths, their per-position ids, and the heap labelling. -/
theorem mapNodeStep_spec (motif : MotifV) (net : NetworkV)
    (motifNode graphNode : Nat) (st : SState)
    (hmo : mappingOk st.mapping) (hpq : pqMapOk st.pqMap) :
    (mapNodeStep motif net motifNode graphNode st).1.used = st.used ∧
    (mapNodeStep motif net motifNode graphNode st).1.mappedNodes
      = st.mappedNodes ∧
    (mapNodeStep motif net motifNode graphNode st).1.unmappedNodes
      = st.unmappedNodes ∧
    (mapNodeStep motif net motifNode graphNode st).1.mappedPositions
      = st.mappedPositions ∧
    (mapNodeStep motif net motifNode graphNode st).1.instances
      = st.instances ∧
    (mapNodeStep motif net motifNode graphNode st).1.mapping.length
      = st.mapping.length ∧
    mappingOk (mapNodeStep motif net motifNode graphNode st).1.mapping ∧
    pqMapOk (mapNodeStep motif net motifNode graphNode st).1.pqMap := by
  refine foldl_pres_mem
    (fun s => s.used = st.used ∧ s.mappedNodes = st.mappedNodes ∧
      s.unmappedNodes = st.unmappedNodes ∧
      s.mappedPositions = st.mappedPositions ∧
      s.instances = st.instances ∧ s.mapping.length = st.mapping.length ∧
      mappingOk s.mapping ∧ pqMapOk s.pqMap)
    ((motif.finalConnections.getD motifNode []).zip
      (motif.links.getD motifNode []))
    (fun s cr =>
      let c := cr.1
      if (s.mappedNodes.getD c none).isSome then s
      else
        let links := (net.nbr graphNode).getD cr.2.motifLinkId []
        let it2 := (s.mapping.getD c (NodeIterator.new c)).addRestrictionList
          links (some graphNode)
        let pq2 := (s.pqMap.getD c PriorityQueue.emptyQ).add
          ⟨graphNode, motifNode, c, links.length⟩
        { s with mapping := s.mapping.set c it2, pqMap := s.pqMap.set c pq2 })
    ?_ st ⟨rfl, rfl, rfl, rfl, rfl, rfl, hmo, hpq⟩
  intro a b _ ha
  obtain ⟨h1, h2, h3, h4, h5, h6, h7, h8⟩ := ha
  dsimp only
  split
  · exact ⟨h1, h2, h3, h4, h5, h6, h7, h8⟩
  · refine ⟨h1, h2, h3, h4, h5, ?_, ?_, ?_⟩
    · rw [List.length_set]
      exact h6
    · exact mappingOk_set _ _ _ h7
        (by rw [addRestrictionList_motifNodeId]; exact h7 _)
    · exact pqMapOk_set_add _ _ _ h8 rfl

/-- `remove_node_mapping` only touches `mapping` and `pq_map`, preserving
lengths, per-position ids and the heap labelling. -/
theorem removeNodeMappingStep_spec (motif : MotifV) (motifNode graphNode : Nat)
    (st s6 : SState)
    (h : removeNodeMappingStep motif motifNode graphNode st = some s6)
    (hmo : mappingOk st.mapping) (hpq : pqMapOk st.pqMap) :
    s6.used = st.used ∧ s6.mappedNodes = st.mappedNodes ∧
    s6.unmappedNodes = st.unmappedNodes ∧
    s6.mappedPositions = st.mappedPositions ∧
    s6.instances = st.instances ∧ s6.mapping.length = st.mapping.length ∧
    mappingOk s6.mapping ∧ pqMapOk s6.pqMap := by
  have key := foldl_pres_option
    (fun s => s.used = st.used ∧ s.mappedNodes = st.mappedNodes ∧
      s.unmappedNodes = st.unmappedNodes ∧
      s.mappedPositions = st.mappedPositions ∧
      s.instances = st.instances ∧ s.mapping.length = st.mapping.length ∧
      mappingOk s.mapping ∧ pqMapOk s.pqMap)
    (fun (os : Option SState) (i : Nat) =>
      match os with
      | none => none
      | some s =>
          let it2 := (s.mapping.getD i (NodeIterator.new i)).removeRestrictionList
            graphNode
          match (s.pqMap.getD i PriorityQueue.emptyQ).removeMotifNode motifNode with
          | none => none
          | some pq2 =>
              some { s with mapping := s.mapping.set i it2,
                            pqMap := s.pqMap.set i pq2 })
    (fun _ => rfl) (motif.finalConnections.getD motifNode [])
    (by
      intro a b a' _ hf ha
      obtain ⟨h1, h2, h3, h4, h5, h6, h7, h8⟩ := ha
      dsimp only at hf
      split at hf
      · cases hf
      next pq2 heq =>
        injection hf with hf1
        subst hf1
        refine ⟨h1, h2, h3, h4, h5, ?_, ?_, ?_⟩
        · rw [List.length_set]
          exact h6
        · exact mappingOk_set _ _ _ h7
            (by rw [removeRestrictionList_motifNodeId]; exact h7 _)
        · exact pqMapOk_set_remove _ _ _ _ h8 heq)
  exact key st s6 h ⟨rfl, rfl, rfl, rfl, rfl, rfl, hmo, hpq⟩

/-- Invariants threaded through the recursive search: the partial mapping
is injective, every mapped host node is flagged used, unmapped positions
hold no node and are not in `mapped_positions`, the heaps are labelled by
`to_position`, and the iterator array is labelled by `motif_node_id`. -/
def SInv (s : SState) : Prop :=
  mappedInj s.mappedNodes ∧ mappedUsed s.mappedNodes s.used ∧
  unmappedNone s ∧ posDisj s ∧ pqMapOk s.pqMap ∧ mappingOk s.mapping

/-- What one completed search call restores: every externally visible
field is as before, the iterator and heap arrays keep their structure, and
every instance it emitted is an injective mapping. -/
def SRestores (s s' : SState) : Prop :=
  s'.used = s.used ∧ s'.mappedNodes = s.mappedNodes ∧
  s'.unmappedNodes = s.unmappedNodes ∧
  s'.mappedPositions = s.mappedPositions ∧
  s'.mapping.length = s.mapping.length ∧ mappingOk s'.mapping ∧
  pqMapOk s'.pqMap ∧
  ∀ inst ∈ s'.instances, inst ∈ s.instances ∨ mappedInj inst

/-- Induction hypothesis for the recursive call of `_map_next`: on inputs
whose motif node is not yet mapped and whose candidate set is unused, a
successful call restores the state. -/
def RecSpec (recurse : Nat → Nat → SState → Option SState) : Prop :=
  ∀ mn kk s s', recurse mn kk s = some s' → SInv s →
    s.mappedNodes.getD mn none = none →
    (∀ nodes, (s.mapping.getD mn (NodeIterator.new mn)).getNodeSet
        = some nodes → ∀ v ∈ nodes, v ∉ s.used) →
    SRestores s s'

/-- The choose-recurse-restore middle of a candidate iteration restores the
state, given that the recursive call does. -/
theorem afterRecStep_spec (sym : SymmetryProperties) (k : Nat)
    (recurse : Nat → Nat → SState → Option SState) (hrec : RecSpec recurse)
    (st s5 : SState) (h : afterRecStep sym k recurse st = some s5)
    (hinv : SInv st) : SRestores st s5 := by
  obtain ⟨hinj, hu, hun, hpd, hpq, hmo⟩ := hinv
  unfold afterRecStep at h
  split at h
  · cases h
  next s2b hg =>
    injection h with h1
    subst h1
    obtain ⟨e1, e2, e3, e4, e5, e6, e7, e8, _⟩ :=
      gnbi_spec sym st s2b none hg hpq hmo
    refine ⟨e1, e2, e3, e4, e7, e8, by rw [e5]; exact hpq, ?_⟩
    intro inst hi
    rw [e6] at hi
    exact Or.inl hi
  next s2b child hg =>
    dsimp only at h
    obtain ⟨e1, e2, e3, e4, e5, e6, e7, e8, hch⟩ :=
      gnbi_spec sym st s2b (some child) hg hpq hmo
    obtain ⟨f1, f2, f3, ns, hns, hnu⟩ := hch child rfl
    by_cases hc : child.data.motifNodeId < s2b.mapping.length
    · rw [if_pos hc] at h
      cases hr : recurse child.data.motifNodeId (k + 1)
          { s2b with mapping := s2b.mapping.set child.data.motifNodeId child }
        with
      | none =>
          rw [hr] at h
          cases h
      | some s4 =>
          rw [hr] at h
          injection h with h1
          subst h1
          have hinj3 : mappedInj s2b.mappedNodes := by rw [e2]; exact hinj
          have hu3 : mappedUsed s2b.mappedNodes s2b.used := by
            rw [e1, e2]; exact hu
          have hun3 : ∀ i ∈ s2b.unmappedNodes,
              s2b.mappedNodes.getD i none = none := by
            intro i hi
            rw [e3] at hi
            rw [e2]
            exact hun i hi
          have hpd3 : ∀ i ∈ s2b.unmappedNodes, i ∉ s2b.mappedPositions := by
            intro i hi
            rw [e3] at hi
            rw [e4]
            exact hpd i hi
          have hpq3 : pqMapOk s2b.pqMap := by rw [e5]; exact hpq
          have hmo3 : mappingOk (s2b.mapping.set child.data.motifNodeId child) :=
            mappingOk_set _ _ _ e8 rfl
          have hgd : s2b.mappedNodes.getD child.data.motifNodeId none = none := by
            rw [e2]
            exact hun _ f1
          have hcands : ∀ nodes,
              ((s2b.mapping.set child.data.motifNodeId child).getD
                  child.data.motifNodeId
                  (NodeIterator.new child.data.motifNodeId)).getNodeSet
                = some nodes → ∀ v ∈ nodes, v ∉ s2b.used := by
            intro nodes hnodes
            rw [listGetD_set, if_pos ⟨rfl, hc⟩,
              getNodeSet_of_nodes child ns hns] at hnodes
            injection hnodes with hnodes
            subst hnodes
            intro v hv
            rw [e1]
            exact hnu v hv
          obtain ⟨g1, g2, g3, g4, g5, g6, g7, g8⟩ :=
            hrec child.data.motifNodeId (k + 1)
              { s2b with mapping := s2b.mapping.set child.data.motifNodeId child }
              s4 hr ⟨hinj3, hu3, hun3, hpd3, hpq3, hmo3⟩ hgd hcands
          refine ⟨?_, ?_, ?_, ?_, ?_, ?_, g7, ?_⟩
          · show s4.used = st.used
            rw [g1]
            exact e1
          · show s4.mappedNodes = st.mappedNodes
            rw [g2]
            exact e2
          · show s4.unmappedNodes = st.unmappedNodes
            rw [g3]
            exact e3
          · show s4.mappedPositions = st.mappedPositions
            rw [g4]
            exact e4
          · show (s4.mapping.set child.data.motifNodeId
                (child.parent.getD
                  (NodeIterator.new child.data.motifNodeId))).length
              = st.mapping.length
            rw [List.length_set, g5]
            show (s2b.mapping.set child.data.motifNodeId child).length
              = st.mapping.length
            rw [List.length_set]
            exact e7
          · show mappingOk (s4.mapping.set child.data.motifNodeId
              (child.parent.getD (NodeIterator.new child.data.motifNodeId)))
            exact mappingOk_set _ _ _ g6 f3
          · intro inst hi
            have hi4 : inst ∈ s4.instances := hi
            rcases g8 inst hi4 with hmem | hinst
            · have hmem2 : inst ∈ s2b.instances := hmem
              rw [e6] at hmem2
              exact Or.inl hmem2
            · exact Or.inr hinst
    · rw [if_neg hc] at h
      cases h

/-- One full candidate iteration (map, recurse, backtrack) restores the
state, given that the recursive call does. -/
theorem candidateStep_spec (net : NetworkV) (motif : MotifV)
    (sym : SymmetryProperties) (motifNode k : Nat)
    (recurse : Nat → Nat → SState → Option SState) (hrec : RecSpec recurse)
    (nd : Nat) (st snext : SState)
    (h : candidateStep net motif sym motifNode k recurse nd st = some snext)
    (hinv : SInv st)
    (hnone : st.mappedNodes.getD motifNode none = none)
    (hnm : motifNode ∉ st.unmappedNodes)
    (hndu : nd ∉ st.used) : SRestores st snext := by
  obtain ⟨hinj, hu, hun, hpd, hpq, hmo⟩ := hinv
  unfold candidateStep at h
  dsimp only at h
  rw [if_pos (mapNodeStep_snd motif net motifNode nd _)] at h
  obtain ⟨m1, m2, m3, m4, m5, m6, m7, m8⟩ :=
    mapNodeStep_spec motif net motifNode nd
      { st with mappedNodes := st.mappedNodes.set motifNode (some nd),
                used := insert nd st.used } hmo hpq
  have m1' : (mapNodeStep motif net motifNode nd
      { st with mappedNodes := st.mappedNodes.set motifNode (some nd),
                used := insert nd st.used }).1.used = insert nd st.used := m1
  have m2' : (mapNodeStep motif net motifNode nd
      { st with mappedNodes := st.mappedNodes.set motifNode (some nd),
                used := insert nd st.used }).1.mappedNodes
      = st.mappedNodes.set motifNode (some nd) := m2
  have m3' : (mapNodeStep motif net motifNode nd
      { st with mappedNodes := st.mappedNodes.set motifNode (some nd),
                used := insert nd st.used }).1.unmappedNodes
      = st.unmappedNodes := m3
  have m4' : (mapNodeStep motif net motifNode nd
      { st with mappedNodes := st.mappedNodes.set motifNode (some nd),
                used := insert nd st.used }).1.mappedPositions
      = st.mappedPositions := m4
  have m5' : (mapNodeStep motif net motifNode nd
      { st with mappedNodes := st.mappedNodes.set motifNode (some nd),
                used := insert nd st.used }).1.instances = st.instances := m5
  have m6' : (mapNodeStep motif net motifNode nd
      { st with mappedNodes := st.mappedNodes.set motifNode (some nd),
                used := insert nd st.used }).1.mapping.length
      = st.mapping.length := m6
  split at h
  · cases h
  next s5 heqA =>
    have hSA : SRestores (mapNodeStep motif net motifNode nd
        { st with mappedNodes := st.mappedNodes.set motifNode (some nd),
                  used := insert nd st.used }).1 s5 := by
      refine afterRecStep_spec sym k recurse hrec _ s5 heqA
        ⟨?_, ?_, ?_, ?_, m8, m7⟩
      · rw [m2']
        exact mappedInj_set _ _ _ hinj (fun i hco => hndu (hu i nd hco))
      · rw [m1', m2']
        exact mappedUsed_set_insert _ _ _ _ hu
      · intro i hi
        rw [m3'] at hi
        have hneq : ¬(i = motifNode ∧ motifNode < st.mappedNodes.length) := by
          intro hq
          exact hnm (hq.1 ▸ hi)
        rw [m2', listGetD_set, if_neg hneq]
        exact hun i hi
      · intro i hi
        rw [m3'] at hi
        rw [m4']
        exact hpd i hi
    obtain ⟨a1, a2, a3, a4, a5, a6, a7, a8⟩ := hSA
    split at h
    · cases h
    next s6 heqR =>
      obtain ⟨r1, r2, r3, r4, r5, r6, r7, r8⟩ :=
        removeNodeMappingStep_spec motif motifNode nd s5 s6 heqR a6 a7
      injection h with h1
      subst h1
      refine ⟨?_, ?_, ?_, ?_, ?_, r7, r8, ?_⟩
      · show s6.used.erase nd = st.used
        rw [r1, a1, m1']
        exact Finset.erase_insert hndu
      · show s6.mappedNodes.set motifNode none = st.mappedNodes
        rw [r2, a2, m2', List.set_set]
        exact listSet_none_of_getD_none _ _ hnone
      · show s6.unmappedNodes = st.unmappedNodes
        rw [r3, a3]
        exact m3'
      · show s6.mappedPositions = st.mappedPositions
        rw [r4, a4]
        exact m4'
      · show s6.mapping.length = st.mapping.length
        rw [r6, a5]
        exact m6'
      · intro inst hi
        have hi6 : inst ∈ s6.instances := hi
        rw [r5] at hi6
        rcases a8 inst hi6 with hm | hj
        · rw [m5'] at hm
          exact Or.inl hm
        · exact Or.inr hj

/-- The whole candidate loop restores the state, given that the recursive
call does. -/
theorem goCandidates_spec (net : NetworkV) (motif : MotifV)
    (sym : SymmetryProperties) (motifNode k : Nat)
    (recurse : Nat → Nat → SState → Option SState) (hrec : RecSpec recurse) :
    ∀ (cands : List Nat) (st st' : SState),
      goCandidates net motif sym motifNode k recurse cands st = some st' →
      SInv st →
      st.mappedNodes.getD motifNode none = none →
      motifNode ∉ st.unmappedNodes →
      (∀ v ∈ cands, v ∉ st.used) →
      SRestores st st' := by
  intro cands
  induction cands with
  | nil =>
      intro st st' h hinv _ _ _
      obtain ⟨_, _, _, _, hpq, hmo⟩ := hinv
      unfold goCandidates at h
      injection h with h1
      subst h1
      exact ⟨rfl, rfl, rfl, rfl, rfl, hmo, hpq, fun inst hi => Or.inl hi⟩
  | cons nd rest ihc =>
      intro st st' h hinv hnone hnm hcs
      unfold goCandidates at h
      split at h
      · cases h
      next snext heq =>
        obtain ⟨hinj, hu, hun, hpd, hpq, hmo⟩ := hinv
        obtain ⟨c1, c2, c3, c4, c5, c6, c7, c8⟩ :=
          candidateStep_spec net motif sym motifNode k recurse hrec nd st snext
            heq ⟨hinj, hu, hun, hpd, hpq, hmo⟩ hnone hnm
            (hcs nd (List.mem_cons_self _ _))
        have hinv' : SInv snext := by
          refine ⟨?_, ?_, ?_, ?_, c7, c6⟩
          · rw [c2]
            exact hinj
          · rw [c1, c2]
            exact hu
          · intro i hi
            rw [c3] at hi
            rw [c2]
            exact hun i hi
          · intro i hi
            rw [c3] at hi
            rw [c4]
            exact hpd i hi
        obtain ⟨q1, q2, q3, q4, q5, q6, q7, q8⟩ :=
          ihc snext st' h hinv' (by rw [c2]; exact hnone) (by rw [c3]; exact hnm)
            (fun v hv => by rw [c1]; exact hcs v (List.mem_cons_of_mem _ hv))
        refine ⟨q1.trans c1, q2.trans c2, q3.trans c3, q4.trans c4,
          q5.trans c5, q6, q7, ?_⟩
        intro inst hi
        rcases q8 inst hi with hm | hj
        · exact c8 inst hm
        · exact Or.inr hj

/-- Main induction: one call of `_map_next` with enough fuel restores the
state and only emits injective instances. -/
theorem mapNext_spec (net : NetworkV) (motif : MotifV)
    (sym : SymmetryProperties) (saveLinks : Bool) :
    ∀ fuel : Nat,
      RecSpec (fun mn kk s => mapNext net motif sym saveLinks fuel mn kk s) := by
  intro fuel
  induction fuel with
  | zero =>
      intro mn kk s s' h _ _ _
      unfold mapNext at h
      cases h
  | succ fuel ih =>
      intro motifNode k st st' h hinv hnone hcand
      obtain ⟨hinj, hu, hun, hpd, hpq, hmo⟩ := hinv
      have h' : mapNext net motif sym saveLinks (fuel + 1) motifNode k st
          = some st' := h
      unfold mapNext at h'
      split at h'
      · cases h'
      next nodes hns =>
        by_cases hk : k = motif.n - 1
        · rw [if_pos hk] at h'
          split at h'
          · cases h'
          split at h'
          · cases h'
          dsimp only at h'
          injection h' with h1
          subst h1
          obtain ⟨hd, p1, p2, p3, p4, p5, p6⟩ :=
            foldl_pres_mem
              (fun s => (s.mappedNodes = st.mappedNodes ∨
                  ∃ nd0, nd0 ∉ st.used ∧
                    s.mappedNodes = st.mappedNodes.set motifNode (some nd0)) ∧
                s.used = st.used ∧ s.mapping = st.mapping ∧
                s.pqMap = st.pqMap ∧ s.unmappedNodes = st.unmappedNodes ∧
                s.mappedPositions = st.mappedPositions ∧
                ∀ inst ∈ s.instances, inst ∈ st.instances ∨ mappedInj inst)
              nodes
              (fun s nd =>
                let m2 := s.mappedNodes.set motifNode (some nd)
                { s with mappedNodes := m2, instances := s.instances ++ [m2] })
              (by
                intro a b hb ha
                obtain ⟨hd, h1, h2, h3, h4, h5, h6⟩ := ha
                have hbu : b ∉ st.used := hcand nodes hns b hb
                have hm2 : a.mappedNodes.set motifNode (some b)
                    = st.mappedNodes.set motifNode (some b) := by
                  rcases hd with hh | ⟨nd0, _, hh⟩
                  · rw [hh]
                  · rw [hh, List.set_set]
                refine ⟨Or.inr ⟨b, hbu, hm2⟩, h1, h2, h3, h4, h5, ?_⟩
                intro inst hi
                rcases List.mem_append.mp hi with hl | hr
                · exact h6 inst hl
                · have hr' : inst = a.mappedNodes.set motifNode (some b) := by
                    simpa using hr
                  rw [hr', hm2]
                  exact Or.inr (mappedInj_set _ _ _ hinj
                    (fun i hco => hbu (hu i b hco))))
              st
              ⟨Or.inl rfl, rfl, rfl, rfl, rfl, rfl, fun inst hi => Or.inl hi⟩
          refine ⟨p1, ?_, p4, p5, by rw [p2], by rw [p2]; exact hmo,
            by rw [p3]; exact hpq, p6⟩
          show (nodes.foldl _ st).mappedNodes.set motifNode none
            = st.mappedNodes
          rcases hd with hh | ⟨nd0, _, hh⟩
          · rw [hh]
            exact listSet_none_of_getD_none _ _ hnone
          · rw [hh, List.set_set]
            exact listSet_none_of_getD_none _ _ hnone
        · rw [if_neg hk] at h'
          split at h'
          next hin =>
            dsimp only at h'
            split at h'
            · cases h'
            next s7 heqG =>
              obtain ⟨q1, q2, q3, q4, q5, q6, q7, q8⟩ :=
                goCandidates_spec net motif sym motifNode k
                  (fun mn kk s => mapNext net motif sym saveLinks fuel mn kk s)
                  ih nodes _ s7 heqG
                  ⟨hinj, hu,
                    (fun i hi => hun i (Finset.mem_of_mem_erase hi)),
                    (fun i hi hmem => by
                      rcases Finset.mem_insert.mp hmem with he | hmem2
                      · exact Finset.ne_of_mem_erase hi he
                      · exact hpd i (Finset.mem_of_mem_erase hi) hmem2),
                    hpq, hmo⟩
                  hnone (Finset.not_mem_erase _ _)
                  (fun v hv => hcand nodes hns v hv)
              have hpos : motifNode ∈ s7.mappedPositions := by
                rw [q4]
                exact Finset.mem_insert_self _ _
              rw [if_pos hpos] at h'
              injection h' with h1
              subst h1
              have q1' : s7.used = st.used := q1
              have q2' : s7.mappedNodes = st.mappedNodes := q2
              have q5' : s7.mapping.length = st.mapping.length := q5
              refine ⟨q1', q2', ?_, ?_, q5', q6, q7, ?_⟩
              · show insert motifNode s7.unmappedNodes = st.unmappedNodes
                rw [q3]
                exact Finset.insert_erase hin
              · show s7.mappedPositions.erase motifNode = st.mappedPositions
                rw [q4]
                exact Finset.erase_insert (hpd motifNode hin)
              · intro inst hi
                rcases q8 inst hi with hm | hj
                · have hm' : inst ∈ st.instances := hm
                  exact Or.inl hm'
                · exact Or.inr hj
          next hin => cases h'

/-- The iterator built for motif node `i` during setup carries id `i`. -/
theorem setupIterator_motifNodeId (net : NetworkV) (motif : MotifV) (i : Nat)
    (it : NodeIterator) (sz : Nat)
    (h : setupIterator net motif i = some (it, sz)) :
    it.data.motifNodeId = i := by
  unfold setupIterator at h
  have key := foldl_pres_option
    (fun (a : NodeIterator × Nat × Finset Nat) => a.1.data.motifNodeId = i)
    (fun (acc : Option (NodeIterator × Nat × Finset Nat)) kk =>
      match acc with
      | none => none
      | some (it, sizeS, seen) =>
          let link := (motif.links.getD i []).getD kk ⟨0, 0, true⟩
          if link.motifLinkId ∈ seen then some (it, sizeS, seen)
          else
            match getNodesOfType net link.motifLinkId with
            | none => none
            | some nodesOfType =>
                some (it.addRestrictionList nodesOfType none,
                  if nodesOfType.length < sizeS then nodesOfType.length
                  else sizeS,
                  insert link.motifLinkId seen))
    (fun _ => rfl)
    (List.range (motif.finalConnections.getD i []).length)
    (by
      intro a b a' _ hf ha
      obtain ⟨it0, sz0, seen0⟩ := a
      dsimp only at hf
      split at hf
      · injection hf with hf1
        subst hf1
        exact ha
      · split at hf
        · cases hf
        next nodesOfType hngt =>
          injection hf with hf1
          subst hf1
          show (it0.addRestrictionList nodesOfType none).data.motifNodeId = i
          rw [addRestrictionList_motifNodeId]
          exact ha)
  rw [Option.map_eq_some'] at h
  obtain ⟨r, hr, hfr⟩ := h
  injection hfr with h1 h2
  rw [← h1]
  exact key (NodeIterator.new i, pyMaxsize, ∅) r hr rfl

/-- Appending the iterator for the next position keeps the id labelling:
positions past the end read the default fresh iterator, which also carries
its own id. -/
theorem getD_append_new (mp : List NodeIterator) (it : NodeIterator)
    (hit : it.data.motifNodeId = mp.length)
    (hP : ∀ j, (mp.getD j (NodeIterator.new j)).data.motifNodeId = j) :
    ∀ j, ((mp ++ [it]).getD j (NodeIterator.new j)).data.motifNodeId = j := by
  intro j
  rcases Nat.lt_trichotomy j mp.length with hj | hj | hj
  · rw [List.getD_eq_getElem?_getD, List.getElem?_append_left hj,
      ← List.getD_eq_getElem?_getD]
    exact hP j
  · subst hj
    rw [List.getD_eq_getElem?_getD, List.getElem?_concat_length]
    exact hit
  · rw [List.getD_eq_getElem?_getD, List.getElem?_eq_none
      (by rw [List.length_append, List.length_singleton]; omega)]
    rfl

/-- The setup fold of `find_motif` produces an id-labelled iterator
array: processing positions `lo, lo+1, ...` starting from a labelled
prefix of length `lo` yields a labelled array. -/
theorem setup_fold (net : NetworkV) (motif : MotifV) :
    ∀ (cnt lo : Nat) (mp : List NodeIterator) (best : Option Nat) (bsz : Nat)
      (res : List NodeIterator × Option Nat × Nat),
      (List.range' lo cnt).foldl (setupFoldStep net motif)
        (some (mp, best, bsz)) = some res →
      mp.length = lo →
      (∀ j, (mp.getD j (NodeIterator.new j)).data.motifNodeId = j) →
      mappingOk res.1 := by
  intro cnt
  induction cnt with
  | zero =>
      intro lo mp best bsz res h _ hP
      have h' : some (mp, best, bsz) = some res := h
      injection h' with h1
      rw [← h1]
      exact hP
  | succ cnt ihc =>
      intro lo mp best bsz res h hlen hP
      rw [List.range'_succ, List.foldl_cons] at h
      cases hsi : setupIterator net motif lo with
      | none =>
          have hstep : setupFoldStep net motif (some (mp, best, bsz)) lo
              = none := by
            show (match setupIterator net motif lo with
                  | none => none
                  | some (it, sizeS) =>
                      if sizeS < bsz then some (mp ++ [it], some lo, sizeS)
                      else some (mp ++ [it], best, bsz)) = none
            rw [hsi]
          rw [hstep, foldl_none _ (fun _ => rfl) _] at h
          cases h
      | some p =>
          obtain ⟨it, sizeS⟩ := p
          have hstep : setupFoldStep net motif (some (mp, best, bsz)) lo
              = if sizeS < bsz then some (mp ++ [it], some lo, sizeS)
                else some (mp ++ [it], best, bsz) := by
            show (match setupIterator net motif lo with
                  | none => none
                  | some (it, sizeS) =>
                      if sizeS < bsz then some (mp ++ [it], some lo, sizeS)
                      else some (mp ++ [it], best, bsz)) = _
            rw [hsi]
          rw [hstep] at h
          have hit : it.data.motifNodeId = mp.length := by
            rw [setupIterator_motifNodeId net motif lo it sizeS hsi, hlen]
          have hlen' : (mp ++ [it]).length = lo + 1 := by
            rw [List.length_append, List.length_singleton, hlen]
          by_cases hlt : sizeS < bsz
          · rw [if_pos hlt] at h
            exact ihc (lo + 1) (mp ++ [it]) (some lo) sizeS res h hlen'
              (getD_append_new mp it hit hP)
          · rw [if_neg hlt] at h
            exact ihc (lo + 1) (mp ++ [it]) best bsz res h hlen'
              (getD_append_new mp it hit hP)

/-- `find_motif` on a freshly loaded network (all `used` flags false):
when it returns, all `used` flags are false again and every emitted
instance maps distinct motif positions to distinct host nodes. -/
theorem findMotifWith_spec (net : NetworkV) (motif : MotifV)
    (sym : SymmetryProperties) (saveLinks : Bool) (st' : SState)
    (h : findMotifWith net motif sym saveLinks ∅ = some st') :
    st'.used = ∅ ∧ ∀ inst ∈ st'.instances, mappedInj inst := by
  unfold findMotifWith at h
  dsimp only at h
  split at h
  · cases h
  · cases h
  next mapping0 best bsz hsetup =>
    have hsetup' : (List.range' 0 motif.n).foldl (setupFoldStep net motif)
        (some ([], none, pyMaxsize)) = some (mapping0, some best, bsz) := by
      rw [← List.range_eq_range']
      exact hsetup
    have hmo0 : mappingOk mapping0 :=
      setup_fold net motif motif.n 0 [] none pyMaxsize
        (mapping0, some best, bsz) hsetup' rfl (fun _ => rfl)
    obtain ⟨s1, _, _, _, _, _, _, s8⟩ :=
      mapNext_spec net motif sym saveLinks (motif.n + 1) best 0 _ st' h
        ⟨(fun i j u hi _ => by rw [getD_replicate_none] at hi; cases hi),
         (fun i u hi => by rw [getD_replicate_none] at hi; cases hi),
         (fun i _ => getD_replicate_none _ _),
         (fun i _ => Finset.not_mem_empty i),
         (fun i obj hobj => by
            rw [getD_replicate_self] at hobj
            exact absurd hobj (List.not_mem_nil _)),
         hmo0⟩
        (getD_replicate_none _ _)
        (fun _ _ v _ => Finset.not_mem_empty v)
    refine ⟨s1, ?_⟩
    intro inst hi
    rcases s8 inst hi with hm | hj
    · have hm' : inst ∈ ([] : List (List (Option Nat))) := hm
      cases hm'
    · exact hj

/-- `find_motif` including the symmetry analysis of the handler
constructor: restored `used` flags and injective instances. -/
theorem findMotif_spec (net : NetworkV) (motif : MotifV) (saveLinks : Bool)
    (st' : SState) (h : findMotif net motif saveLinks ∅ = some st') :
    st'.used = ∅ ∧ ∀ inst ∈ st'.instances, mappedInj inst := by
  unfold findMotif at h
  split at h
  · cases h
  next sym _ => exact findMotifWith_spec net motif sym saveLinks st' h

/-- The final search state of the single-edge example run (used by the
witnesses below; `findMotif` returns `some` on it, so the default is never
read). -/
def stE : SState :=
  (findMotif edgeNet edgeMotif false ∅).getD ⟨∅, [], [], [], ∅, ∅, []⟩

/-- The single-edge example run completes without a crash. -/
theorem findMotif_edge_eq : findMotif edgeNet edgeMotif false ∅ = some stE := rfl

/-- **C1**: for every motif and host network, every instance emitted by
`MotifFinder.find_motif` (the `instances` field of the final search state,
for a search started with all `used` flags false) assigns host nodes to
motif positions injectively: two positions holding the same host node are
equal. -/
theorem c1_find_motif_injective (net : NetworkV) (motif : MotifV)
    (saveLinks : Bool) (st' : SState)
    (h : findMotif net motif saveLinks ∅ = some st')
    (inst : List (Option Nat)) (hin : inst ∈ st'.instances)
    (i j u : Nat) (hi : inst.getD i none = some u)
    (hj : inst.getD j none = some u) : i = j :=
  (findMotif_spec net motif saveLinks st' h).2 inst hin i j u hi hj

/-- Witness for C1: the single-edge run emits the instance mapping
positions 0, 1 to hosts 1, 2, and the theorem applies to it. -/
theorem c1_find_motif_injective_witness :
    findMotif edgeNet edgeMotif false ∅ = some stE ∧
    [some 1, some 2] ∈ stE.instances ∧ (1 : Nat) = 1 :=
  ⟨findMotif_edge_eq, by decide,
    c1_find_motif_injective edgeNet edgeMotif false stE findMotif_edge_eq
      [some 1, some 2] (by decide) 1 1 2 rfl rfl⟩

/-- **C6**: for every motif and host network, after
`MotifFinder.find_motif` returns (search started with all `used` flags
false), every host node again has `used = false`: the set of used flags of
the final state is empty. -/
theorem c6_find_motif_restores_used (net : NetworkV) (motif : MotifV)
    (saveLinks : Bool) (st' : SState)
    (h : findMotif net motif saveLinks ∅ = some st') :
    st'.used = ∅ :=
  (findMotif_spec net motif saveLinks st' h).1

/-- Witness for C6: the single-edge run completes and its final used-set
is empty. -/
theorem c6_find_motif_restores_used_witness :
    findMotif edgeNet edgeMotif false ∅ = some stE ∧ stE.used = ∅ :=
  ⟨findMotif_edge_eq,
    c6_find_motif_restores_used edgeNet edgeMotif false stE findMotif_edge_eq⟩

end ISMAGS
